import Mathlib

/-!
Verification development for the transcript_tag repository.

Strings are modelled as `List Char` (`Str`), JS numbers that can be NaN as
`Option Int` (`none` = NaN), and fallible/throwing code as `Option`-valued
functions.  All definitions are transcribed from the repository sources:
`src/types/transcript.ts`, `src/utils/vttParser.ts`,
`src/hooks/useAnnotationSession.ts`, the annotation-type module and the
annotation-export module.
-/

abbrev Str := List Char

/-! ## Basic character / string helpers (JS semantics) -/

/-- JS whitespace (the set recognised by `String.prototype.trim` and `\s`),
restricted to the code points exercised by this repository. -/
def isJsWs (c : Char) : Bool :=
  c.toNat == 32 || c.toNat == 9 || c.toNat == 10 || c.toNat == 13 ||
  c.toNat == 11 || c.toNat == 12 || c.toNat == 160 || c.toNat == 0xFEFF ||
  c.toNat == 0x2028 || c.toNat == 0x2029

/-- ASCII digit, the `\d` / `[0-9]` class of JS regexes. -/
def isDig (c : Char) : Bool := 48 ≤ c.toNat && c.toNat ≤ 57

/-- `String.prototype.trim`. -/
def trimJs (l : Str) : Str :=
  ((l.dropWhile isJsWs).reverse.dropWhile isJsWs).reverse

/-- `String.prototype.split` with a single-character separator. -/
def splitOnChar (sep : Char) : Str → List Str
  | [] => [[]]
  | c :: rest =>
    if c = sep then [] :: splitOnChar sep rest
    else
      match splitOnChar sep rest with
      | s :: ss => (c :: s) :: ss
      | [] => [[c]]

/-- Fuel-driven worker for `splitOnSub`. -/
def splitOnSubAux (sep : Str) : Nat → Str → List Str
  | _, [] => [[]]
  | 0, l => [l]
  | fuel+1, l@(c :: rest) =>
    if sep.isPrefixOf l ∧ sep ≠ [] then
      [] :: splitOnSubAux sep fuel (l.drop sep.length)
    else
      match splitOnSubAux sep fuel rest with
      | s :: ss => (c :: s) :: ss
      | [] => [[c]]

/-- `String.prototype.split` with a multi-character separator. -/
def splitOnSub (sep l : Str) : List Str := splitOnSubAux sep (l.length + 1) l

/-- `String.prototype.includes`. -/
def containsSub (sep : Str) : Str → Bool
  | [] => sep.isEmpty
  | l@(_ :: rest) => sep.isPrefixOf l || containsSub sep rest

/-- `String.prototype.padStart(n, c)`. -/
def padStartChar (c : Char) (n : Nat) (l : Str) : Str :=
  List.replicate (n - l.length) c ++ l

/-- `String.prototype.padEnd(n, c)`. -/
def padEndChar (c : Char) (n : Nat) (l : Str) : Str :=
  l ++ List.replicate (n - l.length) c

/-- Decimal digit character. -/
def digitChar (n : Nat) : Char :=
  match n with
  | 0 => '0' | 1 => '1' | 2 => '2' | 3 => '3' | 4 => '4'
  | 5 => '5' | 6 => '6' | 7 => '7' | 8 => '8' | _ => '9'

/-- Fuel-driven decimal printer (most significant digit first). -/
def natToStrAux : Nat → Nat → Str
  | 0, _ => []
  | fuel+1, n =>
    if n < 10 then [digitChar n]
    else natToStrAux fuel (n / 10) ++ [digitChar (n % 10)]

/-- `Number.prototype.toString` for a non-negative integer. -/
def natToStr (n : Nat) : Str := natToStrAux (n + 1) n

/-- Numeric value of a digit string (used to state `parseInt` facts). -/
def digitsVal (l : Str) : Nat := l.foldl (fun a c => 10 * a + (c.toNat - 48)) 0

/-- Longest digit prefix of `l`, as a value; `none` when there is no digit. -/
def digitsPrefixVal (l : Str) : Option Nat :=
  let ds := l.takeWhile isDig
  if ds = [] then none else some (digitsVal ds)

/-- JS `parseInt(-, 10)`: skip leading whitespace, optional sign, then the
longest digit prefix; `none` models `NaN`. -/
def parseIntJS (l : Str) : Option Int :=
  let l1 := l.dropWhile isJsWs
  if l1.head? = some '-' then (digitsPrefixVal l1.tail).map (fun n => -(n : Int))
  else if l1.head? = some '+' then (digitsPrefixVal l1.tail).map (fun n => (n : Int))
  else (digitsPrefixVal l1).map (fun n => (n : Int))

/-- `Number.prototype.toString` for a JS number that is an integer or NaN. -/
def numToStr : Option Int → Str
  | none => "NaN".toList
  | some i => if i < 0 then '-' :: natToStr i.natAbs else natToStr i.toNat

/-- ASCII `String.prototype.toLowerCase`. -/
def toLowerStr (l : Str) : Str := l.map Char.toLower

/-! ## Time codec (`parseTimeToMs` from types/transcript.ts, `formatVTTTime`
from utils/vttParser.ts) -/

/-- `parseTimeToMs` from src/types/transcript.ts.  Accepts `HH:MM:SS.mmm`,
`MM:SS.mmm` or `SS.mmm`; `none` models a NaN result. -/
def parseTimeToMs (timeStr : Str) : Option Int :=
  let parts := splitOnChar ':' timeStr
  let hms : Option Int × Option Int × Str :=
    match parts with
    | [a, b, c] => (parseIntJS a, parseIntJS b, c)
    | [a, b] => (some 0, parseIntJS a, b)
    | _ => (some 0, some 0, parts.headD [])
  let smParts := splitOnChar '.' hms.2.2
  let secondsStr := smParts.headD []
  let msStr : Str :=
    match smParts with
    | _ :: m :: _ => m
    | _ => "000".toList
  let seconds := parseIntJS secondsStr
  let milliseconds := parseIntJS ((padEndChar '0' 3 msStr).take 3)
  match hms.1, hms.2.1, seconds, milliseconds with
  | some h, some m, some s, some ms => some (((h * 60 + m) * 60 + s) * 1000 + ms)
  | _, _, _, _ => none

/-- `formatVTTTime` from src/utils/vttParser.ts (`HH:MM:SS.mmm`, zero padded). -/
def formatVTTTime (milliseconds : Nat) : Str :=
  let totalSeconds := milliseconds / 1000
  let ms := milliseconds % 1000
  let hours := totalSeconds / 3600
  let minutes := (totalSeconds % 3600) / 60
  let seconds := totalSeconds % 60
  padStartChar '0' 2 (natToStr hours) ++ ':' ::
    (padStartChar '0' 2 (natToStr minutes) ++ ':' ::
      (padStartChar '0' 2 (natToStr seconds) ++ '.' ::
        padStartChar '0' 3 (natToStr ms)))

/-! ## Data model (src/types/transcript.ts) -/

inductive VTTErrorType where
  | INVALID_FORMAT
  | CORRUPTED_FILE
  | TOO_LARGE
  | NO_CUES
  | INVALID_TIMESTAMP
  | EMPTY_CUE
deriving DecidableEq, Repr

structure VTTParseError where
  type : VTTErrorType
  message : Str
  lineNumber : Option Nat := none
  details : Option Str := none
deriving DecidableEq, Repr

structure TranscriptCue where
  id : Str
  startMs : Option Int
  endMs : Option Int
  text : Str
  speaker : Option Str := none
  importance : Option Int := none
deriving DecidableEq, Repr

structure ParseResult where
  success : Bool
  cues : Option (List TranscriptCue)
  errors : Option (List VTTParseError)
  warnings : Option (List Str)
deriving DecidableEq, Repr

structure VTTValidationRules where
  maxFileSize : Nat
  requiredHeader : Str
  minCues : Nat
  maxCues : Nat
  maxCueLength : Nat
deriving DecidableEq, Repr

def VTT_VALIDATION_CONFIG : VTTValidationRules :=
  { maxFileSize := 50000000
    requiredHeader := "WEBVTT".toList
    minCues := 1
    maxCues := 10000
    maxCueLength := 5000 }

/-! JS comparisons on possibly-NaN numbers: any comparison with NaN is false. -/

def jsGe : Option Int → Option Int → Bool
  | some a, some b => b ≤ a
  | _, _ => false

def jsGt : Option Int → Option Int → Bool
  | some a, some b => b < a
  | _, _ => false

def jsLt (a b : Option Int) : Bool := jsGt b a

def jsLe (a b : Option Int) : Bool := jsGe b a

/-- `validateTranscriptCue` from src/types/transcript.ts (on a fully-built
cue, as the parser calls it; all numeric fields are JS numbers). -/
def validateTranscriptCue (cue : TranscriptCue) : List Str :=
  (if cue.id = [] then ["Cue ID is required".toList] else []) ++
  (if jsLt cue.startMs (some 0) then ["Start time must be a non-negative number".toList] else []) ++
  (if jsLe cue.endMs (some 0) then ["End time must be a positive number".toList] else []) ++
  (if jsLe cue.endMs cue.startMs then ["End time must be greater than start time".toList] else []) ++
  (if cue.text = [] ∨ trimJs cue.text = [] then ["Cue text cannot be empty".toList] else []) ++
  (if cue.text ≠ [] ∧ cue.text.length > VTT_VALIDATION_CONFIG.maxCueLength then
    ["Cue text exceeds maximum length of ".toList ++ natToStr VTT_VALIDATION_CONFIG.maxCueLength ++ " characters".toList] else []) ++
  (match cue.importance with
   | none => []
   | some v => if v = 0 ∨ v = 1 ∨ v = 2 ∨ v = 3 then [] else ["Importance level must be 0, 1, 2, or 3".toList])

/-! ## Timing-line recogniser

The parser matches each candidate line against
`^(\d{1,2}:)?(\d{1,2}):(\d{1,2})\.(\d{1,3})\s*-->\s*(\d{1,2}:)?(\d{1,2}):(\d{1,2})\.(\d{1,3})(.*)$`.
Because the regex is anchored at both ends with a trailing `(.*)`, only
acceptance matters (`match[0]` is the whole line), so the recogniser below
enumerates the finitely many digit-count alternatives. -/

def takeDigitsExact : Nat → Str → Option Str
  | 0, l => some l
  | _+1, [] => none
  | k+1, c :: rest => if isDig c then takeDigitsExact k rest else none

def expectChar (c : Char) : Str → Option Str
  | [] => none
  | d :: rest => if d = c then some rest else none

/-- Remainders of `l` after `(\d{1,2}:)?(\d{1,2}):(\d{1,2})\.(\d{1,3})`. -/
def tsTails (l : Str) : List Str :=
  let counts2 : List Nat := [1, 2]
  let counts3 : List Nat := [1, 2, 3]
  let afterColonGroup : Str → List Str := fun s =>
    counts2.filterMap fun k => do
      let r ← takeDigitsExact k s
      expectChar ':' r
  let starts : List Str := l :: afterColonGroup l
  starts.foldr (fun s1 acc =>
    ((afterColonGroup s1).foldr (fun s2 acc2 =>
      ((counts2.filterMap fun ks => do
          let r ← takeDigitsExact ks s2
          expectChar '.' r).foldr (fun s3 acc3 =>
        (counts3.filterMap fun kms => takeDigitsExact kms s3) ++ acc3) []) ++ acc2) []) ++ acc) []

/-- Acceptance of the timing-line regex. -/
def matchTiming (l : Str) : Bool :=
  (tsTails l).any fun r1 =>
    let r2 := r1.dropWhile isJsWs
    if ("-->".toList).isPrefixOf r2 then
      let r3 := (r2.drop 3).dropWhile isJsWs
      !(tsTails r3).isEmpty
    else false

/-! ## Speaker extraction (extractSpeakerFromTextLines, vttParser.ts) -/

/-- apostrophe, written by code point to keep the character class readable. -/
def apos : Char := Char.ofNat 39

/-- The `[\w .,'"\-()]` class of the colon speaker pattern. -/
def inWClass (c : Char) : Bool :=
  isDig c || (97 ≤ c.toNat && c.toNat ≤ 122) || (65 ≤ c.toNat && c.toNat ≤ 90) ||
  c = '_' || c = ' ' || c = '.' || c = ',' || c = apos || c = '"' || c = '-' ||
  c = '(' || c = ')'

/-- `/^<v\s+([^>]+)>(.*)$/i`: returns (speakerRaw, contentAfterTag). -/
def voiceMatchF (f : Str) : Option (Str × Str) :=
  match f with
  | '<' :: v :: rest =>
    if v = 'v' ∨ v = 'V' then
      match rest.head? with
      | some c0 =>
        if isJsWs c0 then
          let k := (rest.takeWhile (fun d => d != '>')).length
          if k < rest.length ∧ 2 ≤ k then
            some ((rest.drop 1).take (k - 1), rest.drop (k + 1))
          else none
        else none
      | none => none
    else none
  | _ => none

/-- `/^([\w .,'"\-()]+):\s*(.*)$/`: returns (group1, group2). -/
def colonMatchF (f : Str) : Option (Str × Str) :=
  let p := (f.takeWhile inWClass).length
  if 1 ≤ p then
    match (f.drop p).head? with
    | some c => if c = ':' then some (f.take p, (f.drop (p + 1)).dropWhile isJsWs) else none
    | none => none
  else none

/-- `/^\[([^\]]+)\]\s*(.*)$/`: returns (group1, group2). -/
def bracketMatchF (f : Str) : Option (Str × Str) :=
  match f with
  | '[' :: rest =>
    let k := (rest.takeWhile (fun d => d != ']')).length
    if k < rest.length ∧ 1 ≤ k then
      some (rest.take k, (rest.drop (k + 1)).dropWhile isJsWs)
    else none
  | _ => none

def bracketFallback (firstLine : Str) (remaining : List Str) : Option Str × List Str :=
  match bracketMatchF firstLine with
  | some (g1, g2) =>
    let speakerCandidate := trimJs g1
    let remainder := trimJs g2
    if 0 < speakerCandidate.length ∧ speakerCandidate.length ≤ 60 then
      (some speakerCandidate, if 0 < remainder.length then remainder :: remaining else remaining)
    else (none, firstLine :: remaining)
  | none => (none, firstLine :: remaining)

def extractSpeakerFromTextLines (textLines : List Str) : Option Str × List Str :=
  match textLines with
  | [] => (none, [])
  | firstLine :: remaining =>
    match voiceMatchF firstLine with
    | some (speakerRaw, contentAfterTag) =>
      let trimmedContent := trimJs contentAfterTag
      if 0 < trimmedContent.length then (some (trimJs speakerRaw), trimmedContent :: remaining)
      else (some (trimJs speakerRaw), remaining)
    | none =>
      match colonMatchF firstLine with
      | some (g1, g2) =>
        let speakerCandidate := trimJs g1
        let remainder := trimJs g2
        if 0 < speakerCandidate.length ∧ speakerCandidate.length ≤ 60 then
          (some speakerCandidate, if 0 < remainder.length then remainder :: remaining else remaining)
        else bracketFallback firstLine remaining
      | none => bracketFallback firstLine remaining

/-! ## Text normalisation (cleanVTTText, vttParser.ts) -/

/-- One global pass of `replace(/O[^C]*C/g, '')` for an open/close pair. -/
def removeSpansAux (opc clc : Char) : Nat → Str → Str
  | 0, l => l
  | _+1, [] => []
  | fuel+1, c :: rest =>
    if c = opc then
      let k := (rest.takeWhile (fun d => d != clc)).length
      if k < rest.length then removeSpansAux opc clc fuel (rest.drop (k + 1))
      else c :: removeSpansAux opc clc fuel rest
    else c :: removeSpansAux opc clc fuel rest

def removeSpans (opc clc : Char) (l : Str) : Str := removeSpansAux opc clc (l.length + 1) l

/-- `replace(/\s+/g, ' ')`. -/
def collapseWsAux : Bool → Str → Str
  | _, [] => []
  | prevWs, c :: rest =>
    if isJsWs c then
      if prevWs then collapseWsAux true rest
      else ' ' :: collapseWsAux true rest
    else c :: collapseWsAux false rest

def collapseWs (l : Str) : Str := collapseWsAux false l

/-- `cleanVTTText`: strip `<...>` tags, strip brace directives, collapse
whitespace, trim. -/
def cleanVTTText (text : Str) : Str :=
  trimJs (collapseWs (removeSpans (Char.ofNat 123) (Char.ofNat 125) (removeSpans '<' '>' text)))

/-- `generateCueId`. -/
def generateCueId (index : Nat) (startMs : Option Int) : Str :=
  "cue_".toList ++ natToStr (index + 1) ++ '_' :: numToStr startMs

/-- `checkOverlappingCues`, returning the warnings it pushes. -/
def overlapWarning (a b : TranscriptCue) : Str :=
  "Overlapping cues detected: ".toList ++ a.id ++ " (".toList ++ numToStr a.endMs ++
    "ms) overlaps with ".toList ++ b.id ++ " (".toList ++ numToStr b.startMs ++ "ms)".toList

def checkOverlappingCues : List TranscriptCue → List Str
  | a :: b :: rest =>
    (if jsGt a.endMs b.startMs then [overlapWarning a b] else []) ++
      checkOverlappingCues (b :: rest)
  | _ => []

/-- `cues.sort((a, b) => a.startMs - b.startMs)`: stable ascending sort; a
comparison involving NaN yields 0 (treated as equal). -/
def cueLe (a b : TranscriptCue) : Bool :=
  match a.startMs, b.startMs with
  | some x, some y => x ≤ y
  | _, _ => true

def insertCue (c : TranscriptCue) : List TranscriptCue → List TranscriptCue
  | [] => [c]
  | d :: ds => if cueLe d c then d :: insertCue c ds else c :: d :: ds

def sortCues (l : List TranscriptCue) : List TranscriptCue :=
  l.foldl (fun acc c => insertCue c acc) []

/-! ## Cue scanning loop (parseVTTFile, vttParser.ts)

The JS `while` loop is modelled with explicit fuel; `none` marks the one
code path on which the loop provably never terminates (a regex-matched
timing line whose text does not contain the literal `" --> "`, where the
`TypeError` caught inside the loop leaves `currentLine` unchanged forever).
-/

/-- Text-collection inner loop: gathers lines up to (excluding) the next
blank line or line containing `" --> "`. -/
def collectText : List Str → List Str × List Str
  | [] => ([], [])
  | line :: rest =>
    if line = [] then ([], line :: rest)
    else if containsSub (" --> ".toList) line then ([], line :: rest)
    else
      let p := collectText rest
      (line :: p.1, p.2)

structure ScanState where
  errors : List VTTParseError
  warnings : List Str
  cues : List TranscriptCue
  cueIndex : Nat
deriving DecidableEq, Repr

def invalidTimestampError (lineNo : Nat) (startTime endTime : Str) : VTTParseError :=
  { type := VTTErrorType.INVALID_TIMESTAMP
    message := "Start time must be less than end time".toList
    lineNumber := some (lineNo + 1)
    details := some ("Start: ".toList ++ startTime ++ ", End: ".toList ++ endTime) }

def emptyCueWarning (n : Nat) : Str :=
  "Empty cue text at line ".toList ++ natToStr n

def lengthWarning (len maxLen n : Nat) : Str :=
  "Cue text exceeds maximum length (".toList ++ natToStr len ++ "/".toList ++
    natToStr maxLen ++ ") at line ".toList ++ natToStr n

def invalidCueError (vErrs : List Str) (lineNo : Nat) (cueId : Str) : VTTParseError :=
  { type := VTTErrorType.INVALID_FORMAT
    message := "Invalid cue: ".toList ++ List.intercalate (", ".toList) vErrs
    lineNumber := some lineNo
    details := some ("Cue ID: ".toList ++ cueId) }

/-- One pass of the parser's cue-scanning loop over the remaining lines.
`lineNo` is the 0-based index of the first element of the line list within
the whole file. -/
def scanCues (rules : VTTValidationRules) : Nat → List Str → Nat → ScanState → Option ScanState
  | 0, _, _, _ => none
  | _+1, [], _, st => some st
  | fuel+1, line :: rest, lineNo, st =>
    if line = [] ∨ ("NOTE".toList).isPrefixOf line then
      scanCues rules fuel rest (lineNo + 1) st
    else if matchTiming line then
      match splitOnSub (" --> ".toList) line with
      | startTime :: part1 :: _ =>
        let endTime := (splitOnChar ' ' part1).headD []
        let startMs := parseTimeToMs startTime
        let endMs := parseTimeToMs endTime
        if jsGe startMs endMs then
          scanCues rules fuel rest (lineNo + 1)
            { st with errors := st.errors ++ [invalidTimestampError lineNo startTime endTime] }
        else
          let tl := collectText rest
          let textLines := tl.1
          let rest2 := tl.2
          let cur := lineNo + 1 + textLines.length
          let sp := extractSpeakerFromTextLines textLines
          let rawText := List.intercalate [' '] sp.2
          let cleanText := cleanVTTText rawText
          if cleanText.length = 0 then
            scanCues rules fuel rest2 cur
              { st with warnings := st.warnings ++ [emptyCueWarning (cur - textLines.length + 1)] }
          else
            let st1 :=
              if cleanText.length > rules.maxCueLength then
                { st with warnings :=
                    st.warnings ++ [lengthWarning cleanText.length rules.maxCueLength (cur - textLines.length + 1)] }
              else st
            let cue : TranscriptCue :=
              { id := generateCueId st1.cueIndex startMs
                startMs := startMs
                endMs := endMs
                text := cleanText
                speaker := sp.1
                importance := none }
            let vErrs := validateTranscriptCue cue
            if vErrs ≠ [] then
              scanCues rules fuel rest2 cur
                { st1 with errors := st1.errors ++ [invalidCueError vErrs (cur - textLines.length) cue.id] }
            else
              scanCues rules fuel rest2 cur
                { st1 with cues := st1.cues ++ [cue], cueIndex := st1.cueIndex + 1 }
      | _ => none
    else
      scanCues rules fuel rest (lineNo + 1) st

/-- Header check: `!lines[0] || !lines[0].startsWith(rules.requiredHeader)`. -/
def headerMissing (rules : VTTValidationRules) (lines : List Str) : Bool :=
  match lines with
  | [] => true
  | l0 :: _ => l0.isEmpty || !(rules.requiredHeader.isPrefixOf l0)

def headerError (rules : VTTValidationRules) : VTTParseError :=
  { type := VTTErrorType.INVALID_FORMAT
    message := "File must start with \"".toList ++ rules.requiredHeader ++ "\" header".toList
    lineNumber := some 1
    details := none }

def noCuesFoundError : VTTParseError :=
  { type := VTTErrorType.NO_CUES
    message := "No valid cues found in file".toList
    lineNumber := none
    details := none }

def minCuesError (rules : VTTValidationRules) (found : Nat) : VTTParseError :=
  { type := VTTErrorType.NO_CUES
    message := "File must contain at least ".toList ++ natToStr rules.minCues ++
      " cue(s), found ".toList ++ natToStr found
    lineNumber := none
    details := none }

def tooManyCuesError (rules : VTTValidationRules) (found : Nat) : VTTParseError :=
  { type := VTTErrorType.TOO_LARGE
    message := "File contains too many cues (".toList ++ natToStr found ++ "/".toList ++
      natToStr rules.maxCues ++ ")".toList
    lineNumber := none
    details := none }

/-- The post-scan error list: the scan's errors extended by the zero-cues,
below-minimum and above-maximum checks, in that order. -/
def finalErrors (rules : VTTValidationRules) (st : ScanState) : List VTTParseError :=
  let errs1 := if st.cues.length = 0 then st.errors ++ [noCuesFoundError] else st.errors
  let errs2 := if st.cues.length < rules.minCues then errs1 ++ [minCuesError rules st.cues.length] else errs1
  if st.cues.length > rules.maxCues then errs2 ++ [tooManyCuesError rules st.cues.length] else errs2

/-- Post-scan assembly of the parse result (final validation, overlap
warnings computed on the cue list in emission order, then the sort, then
packaging), exactly as at the end of `parseVTTFile`. -/
def assembleResult (rules : VTTValidationRules) (st : ScanState) : ParseResult :=
  let errs3 := finalErrors rules st
  let warns := st.warnings ++ checkOverlappingCues st.cues
  let sorted := sortCues st.cues
  { success := errs3.isEmpty
    cues := if errs3.isEmpty then some sorted else none
    errors := if errs3.isEmpty then none else some errs3
    warnings := if warns.isEmpty then none else some warns }

/-- The body of `parseVTTFile` after the emptiness check, acting on the
already-split and trimmed lines. -/
def parseVTTLines (rules : VTTValidationRules) (lines : List Str) : Option ParseResult :=
  let initErrors := if headerMissing rules lines then [headerError rules] else []
  match scanCues rules (lines.length + 1) (lines.drop 1) 1
      { errors := initErrors, warnings := [], cues := [], cueIndex := 0 } with
  | none => none
  | some st => some (assembleResult rules st)

/-- `fileContent.split(/\r?\n/)`. -/
def splitLinesRe : Str → List Str
  | [] => [[]]
  | '\r' :: '\n' :: rest => [] :: splitLinesRe rest
  | '\n' :: rest => [] :: splitLinesRe rest
  | c :: rest =>
    match splitLinesRe rest with
    | s :: ss => (c :: s) :: ss
    | [] => [[c]]

def emptyContentResult : ParseResult :=
  { success := false
    cues := none
    errors := some [{ type := VTTErrorType.CORRUPTED_FILE
                      message := "File content is empty".toList
                      lineNumber := none
                      details := none }]
    warnings := none }

/-- `parseVTTFile` from src/utils/vttParser.ts.  `none` models the
non-terminating code path described at `scanCues`. -/
def parseVTTFile (rules : VTTValidationRules) (fileContent : Str) : Option ParseResult :=
  if fileContent.isEmpty || (trimJs fileContent).isEmpty then some emptyContentResult
  else parseVTTLines rules ((splitLinesRe fileContent).map trimJs)

/-! ## Annotation session model (types/annotation.ts, useAnnotationSession.ts) -/

structure AnnotationSession where
  sessionId : Str
  meetingId : Option Str
  annotator : Option Str
  version : Int
  createdAt : Str
  lastModified : Str
  originalFileName : Option Str
  originalFileContent : Option Str
  cues : List TranscriptCue
deriving DecidableEq, Repr

structure ImportanceLevelsCount where
  noise : Nat
  optional : Nat
  important : Nat
  critical : Nat
deriving DecidableEq, Repr

structure SessionCompletionSummary where
  totalCues : Nat
  ratedCues : Nat
  remainingCueCount : Nat
  remainingCueIndices : List Nat
  progressPercentage : Nat
  importanceLevels : ImportanceLevelsCount
  isSessionComplete : Bool
  metadataReady : Bool
  missingMetadataFields : List Str
deriving DecidableEq, Repr

def bumpLevels (lv : ImportanceLevelsCount) (v : Int) : ImportanceLevelsCount :=
  let lv1 := if v = 0 then { lv with noise := lv.noise + 1 } else lv
  let lv2 := if v = 1 then { lv1 with optional := lv1.optional + 1 } else lv1
  let lv3 := if v = 2 then { lv2 with important := lv2.important + 1 } else lv2
  if v = 3 then { lv3 with critical := lv3.critical + 1 } else lv3

/-- The `session.cues.forEach` accumulation in `summarizeSessionCompletion`:
(ratedCues, remainingCueIndices, importanceLevels) from position `idx` on. -/
def completionScan : Nat → List TranscriptCue → Nat × List Nat × ImportanceLevelsCount
  | _, [] => (0, [], { noise := 0, optional := 0, important := 0, critical := 0 })
  | idx, c :: rest =>
    let p := completionScan (idx + 1) rest
    match c.importance with
    | none => (p.1, idx :: p.2.1, p.2.2)
    | some v => (p.1 + 1, p.2.1, bumpLevels p.2.2 v)

/-- `summarizeSessionCompletion` from src/hooks/useAnnotationSession.ts.
`Math.round(rated / total * 100)` is modelled exactly on rationals as
`(200 * rated + total) / (2 * total)`. -/
def summarizeSessionCompletion : Option AnnotationSession → Option SessionCompletionSummary
  | none => none
  | some session =>
    let totalCues := session.cues.length
    let p := completionScan 0 session.cues
    let ratedCues := p.1
    let remainingCueCount := Nat.max (totalCues - ratedCues) 0
    let metadataFileName := session.originalFileName.getD []
    let missingMetadataFields : List Str :=
      if trimJs metadataFileName = [] then ["originalFileName".toList] else []
    some {
      totalCues := totalCues
      ratedCues := ratedCues
      remainingCueCount := remainingCueCount
      remainingCueIndices := p.2.1
      progressPercentage := if 0 < totalCues then (200 * ratedCues + totalCues) / (2 * totalCues) else 0
      importanceLevels := p.2.2
      isSessionComplete := decide (0 < totalCues) && decide (remainingCueCount = 0)
      metadataReady := missingMetadataFields.isEmpty
      missingMetadataFields := missingMetadataFields }

/-- Cue-list update performed by the hook's `updateCueImportance` callback:
bounds-checked, then `updatedCues[cueIndex] = { ...cue, importance }` with no
validation of the stored value. -/
def updateCueImportance (cues : List TranscriptCue) (cueIndex : Nat) (importance : Int) :
    List TranscriptCue :=
  match cues.get? cueIndex with
  | none => cues
  | some c => cues.set cueIndex { c with importance := some importance }

/-- Cue-list update performed by `clearCueImportance` (`delete cue.importance`). -/
def clearCueImportance (cues : List TranscriptCue) (cueIndex : Nat) : List TranscriptCue :=
  match cues.get? cueIndex with
  | none => cues
  | some c => cues.set cueIndex { c with importance := none }

/-! ## Annotation export projection (types/annotation.ts, annotationExport) -/

structure ImportanceAnnotation where
  annotationId : Str
  startMs : Option Int
  endMs : Option Int
  importance : Int
  notes : Str
  timestamp : Str
deriving DecidableEq, Repr

/-- `generateImportanceNotes`; `none` models the thrown `Error` on an invalid
importance level. -/
def generateImportanceNotes (importance : Int) : Option Str :=
  if importance = 3 then some "Critical decision/commitment".toList
  else if importance = 2 then some "Important information/evidence".toList
  else if importance = 1 then some "Optional background context".toList
  else if importance = 0 then some "Noise/non-informative".toList
  else none

/-- `generateAnnotationId`. -/
def generateAnnotationId (index : Nat) : Str := 'A' :: natToStr (index + 1)

/-- `createAnnotationFromCue`; `now` is the `new Date().toISOString()` stamp,
`none` models a thrown `Error`. -/
def createAnnotationFromCue (now : Str) (cue : TranscriptCue) (importance : Int) (index : Nat) :
    Option ImportanceAnnotation :=
  if cue.importance = none then none
  else
    match generateImportanceNotes importance with
    | none => none
    | some notes =>
      some { annotationId := generateAnnotationId index
             startMs := cue.startMs
             endMs := cue.endMs
             importance := importance
             notes := notes
             timestamp := now }

/-- The `session.cues.forEach` loop of `generateAnnotationsFromSession`,
carrying `annotationIndex`. -/
def generateAnnotationsAux (now : Str) : Nat → List TranscriptCue →
    Option (List ImportanceAnnotation)
  | _, [] => some []
  | idx, c :: rest =>
    match c.importance with
    | none => generateAnnotationsAux now idx rest
    | some v =>
      match createAnnotationFromCue now c v idx with
      | none => none
      | some a =>
        match generateAnnotationsAux now (idx + 1) rest with
        | none => none
        | some tailAnns => some (a :: tailAnns)

/-- `generateAnnotationsFromSession` from the annotation-export module. -/
def generateAnnotationsFromSession (now : Str) (session : AnnotationSession) :
    Option (List ImportanceAnnotation) :=
  generateAnnotationsAux now 0 session.cues

/-! ## Export packaging: sanitization and filename derivation -/

def sanitizeOptionalString : Option Str → Str
  | none => []
  | some s => trimJs s

def deriveOriginalFilename : Option Str → Str
  | none => "original.vtt".toList
  | some s =>
    let trimmed := trimJs s
    if 0 < trimmed.length then trimmed else "original.vtt".toList

/-- `replace(/\.[^/.]+$/, '')`. -/
def stripExtRegex (l : Str) : Str :=
  let rev := l.reverse
  let ext := rev.takeWhile (fun c => c != '.' && c != '/')
  match rev.drop ext.length with
  | '.' :: kept => if ext.isEmpty then l else kept.reverse
  | _ => l

def ensureVttExtension (filename : Str) : Str :=
  let lower := toLowerStr filename
  if (".vtt".toList).isSuffixOf lower ∨ (".txt".toList).isSuffixOf lower then
    if (".txt".toList).isSuffixOf lower then filename.take (filename.length - 4) ++ ".vtt".toList
    else filename
  else stripExtRegex filename ++ ".vtt".toList

def removeExtension (filename : Str) : Str :=
  let afterLen := (filename.reverse.takeWhile (fun c => c != '.')).length
  if afterLen = filename.length then filename
  else
    let lastDot := filename.length - 1 - afterLen
    if lastDot = 0 then filename else filename.take lastDot

/-- The `[a-zA-Z0-9-_]` class kept by `sanitizeFilenameSegment`. -/
def allowedSeg (c : Char) : Bool :=
  isDig c || (97 ≤ c.toNat && c.toNat ≤ 122) || (65 ≤ c.toNat && c.toNat ≤ 90) ||
  c = '-' || c = '_'

/-- `replace(/[^a-zA-Z0-9-_]+/g, '-')`. -/
def collapseDisallowedAux : Bool → Str → Str
  | _, [] => []
  | prevBad, c :: rest =>
    if allowedSeg c then c :: collapseDisallowedAux false rest
    else if prevBad then collapseDisallowedAux true rest
    else '-' :: collapseDisallowedAux true rest

/-- `replace(/^-+|-+$/g, '')`. -/
def trimHyphens (l : Str) : Str :=
  ((l.dropWhile (fun c => c == '-')).reverse.dropWhile (fun c => c == '-')).reverse

def sanitizeFilenameSegment (raw : Str) : Str :=
  let sanitized := trimHyphens (collapseDisallowedAux false raw)
  if 0 < sanitized.length then toLowerStr sanitized else "session".toList

def deriveArchivePrefix (meetingId originalFileName : Str) : Str :=
  let preferred :=
    if meetingId ≠ [] then meetingId
    else if removeExtension originalFileName ≠ [] then removeExtension originalFileName
    else "session".toList
  sanitizeFilenameSegment preferred

structure ExportNaming where
  archivePrefix : Str
  vttFilename : Str
  filename : Str
deriving DecidableEq, Repr

/-- The naming pipeline of `exportAnnotations`: metadata sanitization, inner
VTT filename, archive prefix, timestamp mangling and archive filename. -/
def exportNaming (meetingId originalFileName : Option Str) (exportTimestamp : Str) :
    ExportNaming :=
  let safeMeetingId := sanitizeOptionalString meetingId
  let safeOriginalFileName := deriveOriginalFilename originalFileName
  let archivePrefix := deriveArchivePrefix safeMeetingId safeOriginalFileName
  let vttFilename := ensureVttExtension safeOriginalFileName
  let timestamp := (exportTimestamp.map (fun c => if c = ':' ∨ c = '.' then '-' else c)).take 19
  { archivePrefix := archivePrefix
    vttFilename := vttFilename
    filename := archivePrefix ++ "-annotations-".toList ++ timestamp ++ ".zip".toList }

/-! ## Export-control view model (createExportControlViewModel) -/

structure ExportControlViewModel where
  disabled : Bool
  label : Str
  tooltip : Option Str
  descriptionId : Str
deriving DecidableEq, Repr

def createExportControlViewModel (isSessionComplete : Bool) (remainingCueCount : Nat)
    (metadataReady : Bool) (pending : Bool) (baseLabel descriptionId : Str) :
    ExportControlViewModel :=
  if !isSessionComplete then
    let cueLabel := if remainingCueCount = 1 then "cue".toList else "cues".toList
    { disabled := true
      label := baseLabel
      tooltip := some ("Annotate ".toList ++ natToStr remainingCueCount ++ " more ".toList ++
        cueLabel ++ " to export".toList)
      descriptionId := descriptionId }
  else if !metadataReady then
    { disabled := true
      label := baseLabel
      tooltip := some "Original file metadata missing; confirm upload before exporting.".toList
      descriptionId := descriptionId }
  else if pending then
    { disabled := true
      label := "Preparing export...".toList
      tooltip := none
      descriptionId := descriptionId }
  else
    { disabled := false
      label := baseLabel
      tooltip := some "Download JSON + original VTT as a ZIP archive.".toList
      descriptionId := descriptionId }

def defaultBaseLabel : Str := "Export annotations".toList

def defaultDescriptionId : Str := "export-control-helper".toList

/-- `createExportControlViewModel` with its default `baseLabel` and
`descriptionId` parameters. -/
def createExportControlViewModelD (isSessionComplete : Bool) (remainingCueCount : Nat)
    (metadataReady : Bool) (pending : Bool) : ExportControlViewModel :=
  createExportControlViewModel isSessionComplete remainingCueCount metadataReady pending
    defaultBaseLabel defaultDescriptionId

/-! ## Supporting lemmas: digits, `parseInt`, splitting -/

theorem digitChar_toNat (n : Nat) (h : n < 10) : (digitChar n).toNat = 48 + n := by
  interval_cases n <;> rfl

theorem isDig_digitChar (n : Nat) (h : n < 10) : isDig (digitChar n) = true := by
  interval_cases n <;> decide

theorem isDig_not_ws {c : Char} (h : isDig c = true) : isJsWs c = false := by
  simp only [isDig, Bool.and_eq_true, decide_eq_true_eq] at h
  apply Bool.eq_false_iff.mpr
  intro hw
  simp only [isJsWs, Bool.or_eq_true, beq_iff_eq] at hw
  omega

theorem isDig_ne_of_toNat {c d : Char} (h : isDig c = true)
    (hd : d.toNat < 48 ∨ 57 < d.toNat) : c ≠ d := by
  rintro rfl
  simp only [isDig, Bool.and_eq_true, decide_eq_true_eq] at h
  omega

theorem digitsVal_append_digit (l : Str) (c : Char) :
    digitsVal (l ++ [c]) = 10 * digitsVal l + (c.toNat - 48) := by
  simp [digitsVal, List.foldl_append]

theorem digitsVal_replicate_zero (k : Nat) (l : Str) :
    digitsVal (List.replicate k '0' ++ l) = digitsVal l := by
  induction k with
  | zero => simp
  | succ k ih => simpa [digitsVal, List.replicate_succ] using ih

theorem natToStrAux_spec (f : Nat) : ∀ n, n < 10 ^ f →
    digitsVal (natToStrAux f n) = n ∧ (∀ c ∈ natToStrAux f n, isDig c = true) := by
  induction f with
  | zero =>
    intro n h
    interval_cases n
    simp [natToStrAux, digitsVal]
  | succ f ih =>
    intro n h
    by_cases h10 : n < 10
    · refine ⟨?_, ?_⟩
      · simp [natToStrAux, h10, digitsVal, digitChar_toNat n h10]
      · intro c hc
        simp [natToStrAux, h10] at hc
        subst hc
        exact isDig_digitChar n h10
    · have hd : n / 10 < 10 ^ f := by
        have hp : (10 : Nat) ^ (f + 1) = 10 ^ f * 10 := pow_succ 10 f
        rw [hp] at h
        omega
      obtain ⟨ihv, ihd⟩ := ih (n / 10) hd
      constructor
      · rw [natToStrAux, if_neg h10, digitsVal_append_digit, ihv,
          digitChar_toNat (n % 10) (Nat.mod_lt n (by norm_num))]
        omega
      · intro c hc
        rw [natToStrAux, if_neg h10] at hc
        rcases List.mem_append.mp hc with hc | hc
        · exact ihd c hc
        · simp at hc
          subst hc
          exact isDig_digitChar (n % 10) (Nat.mod_lt n (by norm_num))

theorem nat_lt_pow_succ (n : Nat) : n < 10 ^ (n + 1) :=
  lt_of_lt_of_le (Nat.lt_pow_self (by norm_num) n)
    (Nat.pow_le_pow_right (by norm_num) (Nat.le_succ n))

theorem natToStr_val (n : Nat) : digitsVal (natToStr n) = n :=
  (natToStrAux_spec (n + 1) n (nat_lt_pow_succ n)).1

theorem natToStr_digits (n : Nat) : ∀ c ∈ natToStr n, isDig c = true :=
  (natToStrAux_spec (n + 1) n (nat_lt_pow_succ n)).2

theorem natToStr_ne_nil (n : Nat) : natToStr n ≠ [] := by
  rw [natToStr, natToStrAux]
  by_cases h10 : n < 10 <;> simp [h10]

theorem natToStrAux_len : ∀ f n k, n < 10 ^ k → 0 < k → (natToStrAux f n).length ≤ k := by
  intro f
  induction f with
  | zero => intro n k _ _; simp [natToStrAux]
  | succ f ih =>
    intro n k hk hk0
    by_cases h10 : n < 10
    · rw [natToStrAux, if_pos h10]
      simpa using hk0
    · have hk2 : 2 ≤ k := by
        rcases k with _ | _ | k
        · omega
        · simp at hk; omega
        · omega
      have hd : n / 10 < 10 ^ (k - 1) := by
        have hp : (10 : Nat) ^ k = 10 ^ (k - 1) * 10 := by
          conv_lhs => rw [show k = (k - 1) + 1 by omega]
          exact pow_succ 10 (k - 1)
        rw [hp] at hk
        omega
      have := ih (n / 10) (k - 1) hd (by omega)
      rw [natToStrAux, if_neg h10]
      simp only [List.length_append, List.length_singleton]
      omega

theorem natToStr_len {n k : Nat} (hk : n < 10 ^ k) (hk0 : 0 < k) :
    (natToStr n).length ≤ k :=
  natToStrAux_len (n + 1) n k hk hk0

theorem takeWhile_all {p : Char → Bool} : ∀ l : Str, (∀ c ∈ l, p c = true) → l.takeWhile p = l := by
  intro l h
  induction l with
  | nil => rfl
  | cons c t ih =>
    rw [List.takeWhile_cons, if_pos (h c (by simp))]
    rw [ih fun x hx => h x (by simp [hx])]

theorem take_all {α : Type} : ∀ (l : List α) (n : Nat), l.length ≤ n → l.take n = l := by
  intro l
  induction l with
  | nil => simp
  | cons c t ih =>
    intro n hn
    rcases n with _ | n
    · simp at hn
    · simpa using ih n (by simpa using hn)

theorem parseIntJS_digits {l : Str} (h1 : l ≠ []) (h2 : ∀ c ∈ l, isDig c = true) :
    parseIntJS l = some ((digitsVal l : Nat) : Int) := by
  obtain ⟨c, t, rfl⟩ := List.exists_cons_of_ne_nil h1
  have hc : isDig c = true := h2 c (by simp)
  have hdrop : (c :: t).dropWhile isJsWs = c :: t := by
    rw [List.dropWhile_cons, isDig_not_ws hc]
    simp
  have hne1 : c ≠ '-' := isDig_ne_of_toNat hc (by left; decide)
  have hne2 : c ≠ '+' := isDig_ne_of_toNat hc (by left; decide)
  rw [parseIntJS]
  simp only [hdrop, List.head?_cons]
  rw [if_neg (by simpa using hne1), if_neg (by simpa using hne2)]
  rw [digitsPrefixVal]
  simp only [takeWhile_all (c :: t) h2]
  simp

theorem splitOnChar_of_not_mem (sep : Char) : ∀ l : Str, (∀ c ∈ l, c ≠ sep) →
    splitOnChar sep l = [l] := by
  intro l h
  induction l with
  | nil => rfl
  | cons c t ih =>
    rw [splitOnChar, if_neg (h c (by simp)), ih fun x hx => h x (by simp [hx])]

theorem splitOnChar_append (sep : Char) : ∀ (a b : Str), (∀ c ∈ a, c ≠ sep) →
    splitOnChar sep (a ++ sep :: b) = a :: splitOnChar sep b := by
  intro a
  induction a with
  | nil =>
    intro b _
    rw [List.nil_append, splitOnChar, if_pos rfl]
  | cons c t ih =>
    intro b h
    rw [List.cons_append, splitOnChar, if_neg (h c (by simp)),
      ih b fun x hx => h x (by simp [hx])]

theorem padStart_digits {l : Str} (k : Nat) (h : ∀ c ∈ l, isDig c = true) :
    ∀ c ∈ padStartChar '0' k l, isDig c = true := by
  intro c hc
  rcases List.mem_append.mp hc with hc | hc
  · rw [List.eq_of_mem_replicate hc]; decide
  · exact h c hc

theorem padStart_val (k : Nat) (l : Str) :
    digitsVal (padStartChar '0' k l) = digitsVal l :=
  digitsVal_replicate_zero (k - l.length) l

theorem padStart_ne_nil {l : Str} (k : Nat) (h : l ≠ []) : padStartChar '0' k l ≠ [] := by
  simp [padStartChar, h]

theorem padStart_len {l : Str} {k : Nat} (h : l.length ≤ k) :
    (padStartChar '0' k l).length = k := by
  simp [padStartChar]
  omega

/-- Claim C4: for every integer `m` in `[0, 359999999]`,
`parseTimeToMs (formatVTTTime m) = m`, and `formatVTTTime` emits the full
zero-padded 12-character `HH:MM:SS.mmm` form. -/
theorem claim_C4_timestamp_roundtrip (m : Nat) (h : m ≤ 359999999) :
    parseTimeToMs (formatVTTTime m) = some (m : Int) ∧ (formatVTTTime m).length = 12 := by
  have hformat : formatVTTTime m =
      padStartChar '0' 2 (natToStr (m / 1000 / 3600)) ++ ':' ::
        (padStartChar '0' 2 (natToStr (m / 1000 % 3600 / 60)) ++ ':' ::
          (padStartChar '0' 2 (natToStr (m / 1000 % 60)) ++ '.' ::
            padStartChar '0' 3 (natToStr (m % 1000)))) := rfl
  have hAd := padStart_digits (l := natToStr (m / 1000 / 3600)) 2 (natToStr_digits _)
  have hBd := padStart_digits (l := natToStr (m / 1000 % 3600 / 60)) 2 (natToStr_digits _)
  have hCd := padStart_digits (l := natToStr (m / 1000 % 60)) 2 (natToStr_digits _)
  have hDd := padStart_digits (l := natToStr (m % 1000)) 3 (natToStr_digits _)
  have hAne : ∀ c ∈ padStartChar '0' 2 (natToStr (m / 1000 / 3600)), c ≠ ':' :=
    fun c hc => isDig_ne_of_toNat (hAd c hc) (by right; decide)
  have hBne : ∀ c ∈ padStartChar '0' 2 (natToStr (m / 1000 % 3600 / 60)), c ≠ ':' :=
    fun c hc => isDig_ne_of_toNat (hBd c hc) (by right; decide)
  have hCDne : ∀ c ∈ padStartChar '0' 2 (natToStr (m / 1000 % 60)) ++ '.' ::
      padStartChar '0' 3 (natToStr (m % 1000)), c ≠ ':' := by
    intro c hc
    rcases List.mem_append.mp hc with hc | hc
    · exact isDig_ne_of_toNat (hCd c hc) (by right; decide)
    · rcases List.mem_cons.mp hc with rfl | hc
      · decide
      · exact isDig_ne_of_toNat (hDd c hc) (by right; decide)
  have hsplit : splitOnChar ':' (formatVTTTime m) =
      [padStartChar '0' 2 (natToStr (m / 1000 / 3600)),
       padStartChar '0' 2 (natToStr (m / 1000 % 3600 / 60)),
       padStartChar '0' 2 (natToStr (m / 1000 % 60)) ++ '.' ::
         padStartChar '0' 3 (natToStr (m % 1000))] := by
    rw [hformat, splitOnChar_append ':' _ _ hAne, splitOnChar_append ':' _ _ hBne,
      splitOnChar_of_not_mem ':' _ hCDne]
  have hCne : ∀ c ∈ padStartChar '0' 2 (natToStr (m / 1000 % 60)), c ≠ '.' :=
    fun c hc => isDig_ne_of_toNat (hCd c hc) (by left; decide)
  have hDne : ∀ c ∈ padStartChar '0' 3 (natToStr (m % 1000)), c ≠ '.' :=
    fun c hc => isDig_ne_of_toNat (hDd c hc) (by left; decide)
  have hsplit2 : splitOnChar '.' (padStartChar '0' 2 (natToStr (m / 1000 % 60)) ++ '.' ::
      padStartChar '0' 3 (natToStr (m % 1000))) =
      [padStartChar '0' 2 (natToStr (m / 1000 % 60)),
       padStartChar '0' 3 (natToStr (m % 1000))] := by
    rw [splitOnChar_append '.' _ _ hCne, splitOnChar_of_not_mem '.' _ hDne]
  have hDlen : (padStartChar '0' 3 (natToStr (m % 1000))).length = 3 :=
    padStart_len (natToStr_len (by norm_num; omega) (by norm_num))
  have hpadD : (padEndChar '0' 3 (padStartChar '0' 3 (natToStr (m % 1000)))).take 3 =
      padStartChar '0' 3 (natToStr (m % 1000)) := by
    rw [padEndChar, hDlen]
    simp [take_all _ _ (le_of_eq hDlen)]
  have hA : parseIntJS (padStartChar '0' 2 (natToStr (m / 1000 / 3600))) =
      some ((m / 1000 / 3600 : Nat) : Int) := by
    rw [parseIntJS_digits (padStart_ne_nil 2 (natToStr_ne_nil _)) hAd,
      padStart_val, natToStr_val]
  have hB : parseIntJS (padStartChar '0' 2 (natToStr (m / 1000 % 3600 / 60))) =
      some ((m / 1000 % 3600 / 60 : Nat) : Int) := by
    rw [parseIntJS_digits (padStart_ne_nil 2 (natToStr_ne_nil _)) hBd,
      padStart_val, natToStr_val]
  have hC : parseIntJS (padStartChar '0' 2 (natToStr (m / 1000 % 60))) =
      some ((m / 1000 % 60 : Nat) : Int) := by
    rw [parseIntJS_digits (padStart_ne_nil 2 (natToStr_ne_nil _)) hCd,
      padStart_val, natToStr_val]
  have hD : parseIntJS (padStartChar '0' 3 (natToStr (m % 1000))) =
      some ((m % 1000 : Nat) : Int) := by
    rw [parseIntJS_digits (padStart_ne_nil 3 (natToStr_ne_nil _)) hDd,
      padStart_val, natToStr_val]
  constructor
  · rw [parseTimeToMs]
    simp only [hsplit, hsplit2, List.headD_cons, hpadD, hA, hB, hC, hD]
    congr 1
    omega
  · rw [hformat]
    have hAlen : (padStartChar '0' 2 (natToStr (m / 1000 / 3600))).length = 2 :=
      padStart_len (natToStr_len (by norm_num; omega) (by norm_num))
    have hBlen : (padStartChar '0' 2 (natToStr (m / 1000 % 3600 / 60))).length = 2 :=
      padStart_len (natToStr_len (by norm_num; omega) (by norm_num))
    have hClen : (padStartChar '0' 2 (natToStr (m / 1000 % 60))).length = 2 :=
      padStart_len (natToStr_len (by norm_num; omega) (by norm_num))
    simp [List.length_append, hAlen, hBlen, hClen, hDlen]

/-- Witness for C4 at `m = 3723004` (`01:02:03.004`). -/
theorem claim_C4_timestamp_roundtrip_witness :
    (3723004 : Nat) ≤ 359999999 ∧
      (parseTimeToMs (formatVTTTime 3723004) = some (3723004 : Int) ∧
        (formatVTTTime 3723004).length = 12) :=
  ⟨by norm_num, claim_C4_timestamp_roundtrip 3723004 (by norm_num)⟩

/-! ## Scan-loop invariants -/

theorem scanCues_invariants (rules : VTTValidationRules) :
    ∀ fuel lines n st st', 1 ≤ n →
    scanCues rules fuel lines n st = some st' →
    (∃ delta, st'.errors = st.errors ++ delta ∧ ∀ e ∈ delta, e.lineNumber ≠ some 1) ∧
    (∀ c ∈ st'.cues, c ∈ st.cues ∨ c.importance = none) := by
  intro fuel
  induction fuel with
  | zero => intro lines n st st' hn h; simp [scanCues] at h
  | succ fuel ih =>
    intro lines n st st' hn h
    match lines with
    | [] =>
      rw [scanCues] at h
      obtain rfl : st = st' := by simpa using h
      exact ⟨⟨[], by simp, by simp⟩, fun c hc => Or.inl hc⟩
    | line :: rest =>
      rw [scanCues] at h
      split_ifs at h with h1 h2
      · exact ih rest (n + 1) st st' (by omega) h
      · split at h
        next startTime part1 tailParts heq =>
          dsimp only at h
          split_ifs at h with hge hclean hlong hverr hverr2
          · obtain ⟨⟨delta, hde, hdl⟩, hcues⟩ := ih rest (n + 1) _ st' (by omega) h
            refine ⟨⟨invalidTimestampError n startTime ((splitOnChar ' ' part1).headD []) :: delta, ?_, ?_⟩, ?_⟩
            · simpa [List.append_assoc] using hde
            · intro e he
              rcases List.mem_cons.mp he with rfl | he
              · simp [invalidTimestampError]
                omega
              · exact hdl e he
            · intro c hc
              rcases hcues c hc with hc | hc
              · exact Or.inl (by simpa using hc)
              · exact Or.inr hc
          · obtain ⟨⟨delta, hde, hdl⟩, hcues⟩ := ih _ _ _ st' (by omega) h
            refine ⟨⟨delta, by simpa using hde, hdl⟩, ?_⟩
            intro c hc
            rcases hcues c hc with hc | hc
            · exact Or.inl (by simpa using hc)
            · exact Or.inr hc
          · obtain ⟨⟨delta, hde, hdl⟩, hcues⟩ := ih _ _ _ st' (by omega) h
            refine ⟨⟨_ :: delta, by simpa [List.append_assoc] using hde, ?_⟩, ?_⟩
            · intro e he
              rcases List.mem_cons.mp he with rfl | he
              · simp [invalidCueError]
                omega
              · exact hdl e he
            · intro c hc
              rcases hcues c hc with hc | hc
              · exact Or.inl (by simpa using hc)
              · exact Or.inr hc
          · obtain ⟨⟨delta, hde, hdl⟩, hcues⟩ := ih _ _ _ st' (by omega) h
            refine ⟨⟨delta, by simpa using hde, hdl⟩, ?_⟩
            intro c hc
            rcases hcues c hc with hc | hc
            · simp at hc
              rcases hc with hc | hc
              · exact Or.inl hc
              · exact Or.inr (by simp [hc])
            · exact Or.inr hc
          · obtain ⟨⟨delta, hde, hdl⟩, hcues⟩ := ih _ _ _ st' (by omega) h
            refine ⟨⟨_ :: delta, by simpa [List.append_assoc] using hde, ?_⟩, ?_⟩
            · intro e he
              rcases List.mem_cons.mp he with rfl | he
              · simp [invalidCueError]
                omega
              · exact hdl e he
            · intro c hc
              rcases hcues c hc with hc | hc
              · exact Or.inl (by simpa using hc)
              · exact Or.inr hc
          · obtain ⟨⟨delta, hde, hdl⟩, hcues⟩ := ih _ _ _ st' (by omega) h
            refine ⟨⟨delta, by simpa using hde, hdl⟩, ?_⟩
            intro c hc
            rcases hcues c hc with hc | hc
            · simp at hc
              rcases hc with hc | hc
              · exact Or.inl hc
              · exact Or.inr (by simp [hc])
            · exact Or.inr hc
        next heq =>
          exact absurd h (by simp)
      · exact ih rest (n + 1) st st' (by omega) h

theorem scanCues_factor (rules : VTTValidationRules) :
    ∀ fuel lines n E W C i,
    scanCues rules fuel lines n ⟨E, W, C, i⟩ =
      (scanCues rules fuel lines n ⟨[], W, C, i⟩).map
        (fun st => ⟨E ++ st.errors, st.warnings, st.cues, st.cueIndex⟩) := by
  intro fuel
  induction fuel with
  | zero => intro lines n E W C i; simp [scanCues]
  | succ fuel ih =>
    intro lines n E W C i
    have key : ∀ lines2 n2 x W2 C2 i2,
        scanCues rules fuel lines2 n2 ⟨E ++ x, W2, C2, i2⟩ =
          (scanCues rules fuel lines2 n2 ⟨x, W2, C2, i2⟩).map
            (fun st => ⟨E ++ st.errors, st.warnings, st.cues, st.cueIndex⟩) := by
      intro lines2 n2 x W2 C2 i2
      rw [ih lines2 n2 (E ++ x) W2 C2 i2, ih lines2 n2 x W2 C2 i2]
      cases scanCues rules fuel lines2 n2 ⟨[], W2, C2, i2⟩ <;> simp [List.append_assoc]
    match lines with
    | [] => simp [scanCues]
    | line :: rest =>
      conv_lhs => rw [scanCues]
      conv_rhs => rw [scanCues]
      split_ifs with h1 h2
      · exact ih rest (n + 1) E W C i
      · split
        next startTime part1 tailParts heq =>
          dsimp only
          split_ifs with hge hclean hlong hverr hverr2
          · simp only [List.nil_append]
            exact key _ _ _ _ _ _
          · exact ih _ _ E _ _ _
          · simp only [List.nil_append]
            exact key _ _ _ _ _ _
          · exact ih _ _ E _ _ _
          · simp only [List.nil_append]
            exact key _ _ _ _ _ _
          · exact ih _ _ E _ _ _
        next heq => simp
      · exact ih rest (n + 1) E W C i

theorem errors_subset_finalErrors (rules : VTTValidationRules) (st : ScanState) :
    ∀ e ∈ st.errors, e ∈ finalErrors rules st := by
  intro e he
  rw [finalErrors]
  split_ifs <;> simp [he]

theorem mem_finalErrors (rules : VTTValidationRules) (st : ScanState) (e : VTTParseError)
    (h : e ∈ finalErrors rules st) : e ∈ st.errors ∨ e.lineNumber = none := by
  rw [finalErrors] at h
  split_ifs at h <;>
    (try simp only [List.append_assoc, List.mem_append, List.mem_singleton] at h)
  · rcases h with h | rfl | rfl | rfl
    · exact Or.inl h
    · exact Or.inr rfl
    · exact Or.inr rfl
    · exact Or.inr rfl
  · rcases h with h | rfl | rfl
    · exact Or.inl h
    · exact Or.inr rfl
    · exact Or.inr rfl
  · rcases h with h | rfl | rfl
    · exact Or.inl h
    · exact Or.inr rfl
    · exact Or.inr rfl
  · rcases h with h | rfl
    · exact Or.inl h
    · exact Or.inr rfl
  · rcases h with h | rfl | rfl
    · exact Or.inl h
    · exact Or.inr rfl
    · exact Or.inr rfl
  · rcases h with h | rfl
    · exact Or.inl h
    · exact Or.inr rfl
  · rcases h with h | rfl
    · exact Or.inl h
    · exact Or.inr rfl
  · exact Or.inl h

theorem assembleResult_success_iff (rules : VTTValidationRules) (st : ScanState) :
    (assembleResult rules st).success = true ↔ (assembleResult rules st).errors = none := by
  rw [assembleResult]
  dsimp only
  split_ifs with h <;> simp [h]

theorem assembleResult_errors_getD (rules : VTTValidationRules) (st : ScanState) :
    (assembleResult rules st).errors.getD [] = finalErrors rules st := by
  rw [assembleResult]
  dsimp only
  split_ifs with h <;> simp_all [List.isEmpty_iff]

theorem headerError_mem_finalErrors (rules : VTTValidationRules) (st : ScanState) :
    headerError rules ∈ finalErrors rules st ↔ headerError rules ∈ st.errors := by
  constructor
  · intro h
    rcases mem_finalErrors rules st _ h with h | h
    · exact h
    · exact absurd h (by simp [headerError])
  · exact errors_subset_finalErrors rules st _

theorem finalErrors_factor (rules : VTTValidationRules) (E : List VTTParseError) (W : List Str)
    (C : List TranscriptCue) (i : Nat) :
    finalErrors rules ⟨E, W, C, i⟩ = E ++ finalErrors rules ⟨[], W, C, i⟩ := by
  rw [finalErrors, finalErrors]
  split_ifs <;> simp [List.append_assoc]

/-! ## Claims C1, C2, C3, C10: parser behaviour -/

def vttC1Input : Str :=
  ("WEBVTT\n\n00:00:05.000 --> 00:00:02.000\nBad cue\n\n" ++
    "00:00:00.000 --> 00:00:02.000\nGood cue\n").toList

def vttC1Lines : List Str := (splitLinesRe vttC1Input).map trimJs

def vttC1Result : ParseResult :=
  { success := false
    cues := none
    errors := some [invalidTimestampError 2 "00:00:05.000".toList "00:00:02.000".toList]
    warnings := none }

/-- Counterexample to claim C1 as stated: `vttC1Input` contains one
reversed-timing block and one valid cue, so the cue count (1) meets the
configured minimum (1); the claim then demands overall success, but the
parser returns `success = false` because the INVALID_TIMESTAMP error is
recorded in the same list that gates success. -/
theorem claim_C1_counterexample :
    (parseVTTFile VTT_VALIDATION_CONFIG vttC1Input).map (fun r => (r.success, r.errors)) =
      some (false, some [invalidTimestampError 2 "00:00:05.000".toList "00:00:02.000".toList]) ∧
    (scanCues VTT_VALIDATION_CONFIG (vttC1Lines.length + 1) (vttC1Lines.drop 1) 1
        ⟨[], [], [], 0⟩).map (fun st => st.cues.length) = some 1 ∧
    VTT_VALIDATION_CONFIG.minCues ≤ 1 := by
  refine ⟨?_, ?_, ?_⟩ <;> decide

/-- Claim C1 (amended): when the scan reaches a timing line whose decoded
start is not strictly below its end, it records exactly one
INVALID_TIMESTAMP error, emits no cue for that block (the accumulated cue
list is untouched) and continues with the next line; and a parse result
that carries any recorded errors has `success = false`, regardless of how
the remaining valid cues compare to the configured minimum. -/
theorem claim_C1_invalid_timestamp (rules : VTTValidationRules) (fuel : Nat) (line : Str)
    (rest : List Str) (lineNo : Nat) (st : ScanState) (startTime part1 : Str)
    (tailParts : List Str) (lines : List Str) (r : ParseResult) (es : List VTTParseError)
    (h1 : ¬(line = [] ∨ (("NOTE".toList).isPrefixOf line) = true))
    (h2 : matchTiming line = true)
    (h3 : splitOnSub (" --> ".toList) line = startTime :: part1 :: tailParts)
    (h4 : jsGe (parseTimeToMs startTime) (parseTimeToMs ((splitOnChar ' ' part1).headD [])) = true)
    (hp : parseVTTLines rules lines = some r) (he : r.errors = some es) :
    scanCues rules (fuel + 1) (line :: rest) lineNo st =
      scanCues rules fuel rest (lineNo + 1)
        { st with errors := st.errors ++
            [invalidTimestampError lineNo startTime ((splitOnChar ' ' part1).headD [])] } ∧
    r.success = false := by
  constructor
  · conv_lhs => rw [scanCues]
    rw [if_neg h1, if_pos h2, h3]
    dsimp only
    rw [if_pos h4]
  · rw [parseVTTLines] at hp
    cases hscan : scanCues rules (lines.length + 1) (lines.drop 1) 1
        ⟨if headerMissing rules lines then [headerError rules] else [], [], [], 0⟩ with
    | none => rw [hscan] at hp; simp at hp
    | some st2 =>
      rw [hscan] at hp
      obtain rfl : assembleResult rules st2 = r := by simpa using hp
      rcases hb : (assembleResult rules st2).success with _ | _
      · rfl
      · rw [(assembleResult_success_iff rules st2).mp hb] at he
        cases he

/-- Witness for the amended C1 at the reversed block of `vttC1Input`. -/
theorem claim_C1_invalid_timestamp_witness :
    (scanCues VTT_VALIDATION_CONFIG (5 + 1) ["00:00:05.000 --> 00:00:02.000".toList] 2
        ⟨[], [], [], 0⟩ =
      scanCues VTT_VALIDATION_CONFIG 5 [] 3
        ⟨[invalidTimestampError 2 "00:00:05.000".toList "00:00:02.000".toList], [], [], 0⟩) ∧
    vttC1Result.success = false :=
  claim_C1_invalid_timestamp VTT_VALIDATION_CONFIG 5 "00:00:05.000 --> 00:00:02.000".toList []
    2 ⟨[], [], [], 0⟩ "00:00:05.000".toList "00:00:02.000".toList [] vttC1Lines vttC1Result
    [invalidTimestampError 2 "00:00:05.000".toList "00:00:02.000".toList]
    (by decide) (by decide) (by decide) (by decide) (by decide) (by decide)

def vttC2Input : Str :=
  "\nWEBVTT\n\n00:00:00.000 --> 00:00:02.000\nHello\n".toList

/-- Counterexample to claim C2 as stated: in `vttC2Input` the first
*non-empty* line starts with the required header token, yet the parser
raises the missing-header INVALID_FORMAT error, because the check looks at
`lines[0]` (here the blank first line) and not at the first non-empty
line. -/
theorem claim_C2_counterexample :
    ("WEBVTT".toList).isPrefixOf
        ((((splitLinesRe vttC2Input).map trimJs).filter (fun l => !l.isEmpty)).headD []) = true ∧
    (parseVTTFile VTT_VALIDATION_CONFIG vttC2Input).map (fun r => r.errors) =
      some (some [headerError VTT_VALIDATION_CONFIG]) := by
  exact ⟨by decide, by decide⟩

/-- Claim C2 (amended): the missing-header INVALID_FORMAT error appears in
the parse result exactly when the *first* (trimmed) line is empty or does
not start with the required header token; and parsing still continues over
the remaining lines — replacing the first line changes nothing in the
result except the presence of the header error (the warnings coincide and
the error lists agree once the header error is filtered out). -/
theorem claim_C2_missing_header (rules : VTTValidationRules) (lines : List Str)
    (r : ParseResult) (l1 l2 : Str) (rest : List Str) (r1 r2 : ParseResult)
    (h : parseVTTLines rules lines = some r)
    (h1 : parseVTTLines rules (l1 :: rest) = some r1)
    (h2 : parseVTTLines rules (l2 :: rest) = some r2) :
    (headerError rules ∈ r.errors.getD [] ↔ headerMissing rules lines = true) ∧
    r1.warnings = r2.warnings ∧
    (r1.errors.getD []).filter (fun e => decide (e ≠ headerError rules)) =
      (r2.errors.getD []).filter (fun e => decide (e ≠ headerError rules)) := by
  refine ⟨?_, ?_⟩
  · rw [parseVTTLines] at h
    cases hscan : scanCues rules (lines.length + 1) (lines.drop 1) 1
        ⟨if headerMissing rules lines then [headerError rules] else [], [], [], 0⟩ with
    | none => rw [hscan] at h; simp at h
    | some st =>
      rw [hscan] at h
      obtain rfl : assembleResult rules st = r := by simpa using h
      rw [assembleResult_errors_getD, headerError_mem_finalErrors]
      obtain ⟨⟨delta, hde, hdl⟩, -⟩ := scanCues_invariants rules _ _ _ _ _ le_rfl hscan
      dsimp only at hde
      rw [hde]
      by_cases hm : headerMissing rules lines = true
      · simp [hm]
      · simp only [Bool.not_eq_true] at hm
        simp only [hm, Bool.false_eq_true, if_false, List.nil_append, iff_false]
        intro hmem
        exact hdl _ hmem rfl
  · rw [parseVTTLines] at h1 h2
    simp only [List.length_cons, List.drop_succ_cons, List.drop_zero] at h1 h2
    rw [scanCues_factor rules (rest.length + 1 + 1) rest 1 _ [] [] 0] at h1
    rw [scanCues_factor rules (rest.length + 1 + 1) rest 1 _ [] [] 0] at h2
    cases hbase : scanCues rules (rest.length + 1 + 1) rest 1 ⟨[], [], [], 0⟩ with
    | none =>
      rw [hbase] at h1
      simp at h1
    | some bst =>
      obtain ⟨bes, bws, bcs, bix⟩ := bst
      rw [hbase] at h1 h2
      simp only [Option.map_some'] at h1 h2
      obtain rfl : assembleResult rules
          ⟨(if headerMissing rules (l1 :: rest) then [headerError rules] else []) ++ bes,
            bws, bcs, bix⟩ = r1 := by
        simpa using h1
      obtain rfl : assembleResult rules
          ⟨(if headerMissing rules (l2 :: rest) then [headerError rules] else []) ++ bes,
            bws, bcs, bix⟩ = r2 := by
        simpa using h2
      constructor
      · rfl
      · rw [assembleResult_errors_getD, assembleResult_errors_getD,
          finalErrors_factor rules
            ((if headerMissing rules (l1 :: rest) then [headerError rules] else []) ++ bes)
            bws bcs bix,
          finalErrors_factor rules
            ((if headerMissing rules (l2 :: rest) then [headerError rules] else []) ++ bes)
            bws bcs bix]
        by_cases hm1 : headerMissing rules (l1 :: rest) = true <;>
          by_cases hm2 : headerMissing rules (l2 :: rest) = true <;>
          simp [hm1, hm2, List.filter_append]

def restC2 : List Str := [[], "00:00:00.000 --> 00:00:02.000".toList, "Hello".toList]

/-- Witness for the amended C2: a blank first line versus the proper
header over the same remaining lines. -/
theorem claim_C2_missing_header_witness :
    ((headerError VTT_VALIDATION_CONFIG ∈
        (ParseResult.errors ⟨false, none, some [headerError VTT_VALIDATION_CONFIG], none⟩).getD [] ↔
      headerMissing VTT_VALIDATION_CONFIG ([] :: restC2) = true) ∧
    (ParseResult.warnings ⟨false, none, some [headerError VTT_VALIDATION_CONFIG], none⟩ =
      ParseResult.warnings ⟨true,
        some [⟨"cue_1_0".toList, some 0, some 2000, "Hello".toList, none, none⟩], none, none⟩) ∧
    ((ParseResult.errors ⟨false, none, some [headerError VTT_VALIDATION_CONFIG], none⟩).getD []).filter
        (fun e => decide (e ≠ headerError VTT_VALIDATION_CONFIG)) =
      ((ParseResult.errors ⟨true,
          some [⟨"cue_1_0".toList, some 0, some 2000, "Hello".toList, none, none⟩],
          none, none⟩).getD []).filter
        (fun e => decide (e ≠ headerError VTT_VALIDATION_CONFIG))) :=
  claim_C2_missing_header VTT_VALIDATION_CONFIG ([] :: restC2)
    ⟨false, none, some [headerError VTT_VALIDATION_CONFIG], none⟩
    [] ("WEBVTT".toList) restC2
    ⟨false, none, some [headerError VTT_VALIDATION_CONFIG], none⟩
    ⟨true, some [⟨"cue_1_0".toList, some 0, some 2000, "Hello".toList, none, none⟩], none, none⟩
    (by decide) (by decide) (by decide)

def vttC3InputA : Str :=
  ("WEBVTT\n\n00:00:10.000 --> 00:00:20.000\nAlpha\n\n" ++
    "00:00:00.000 --> 00:00:05.000\nBeta\n").toList

def vttC3InputB : Str :=
  ("WEBVTT\n\n00:00:00.000 --> 00:00:05.000\nBeta\n\n" ++
    "00:00:10.000 --> 00:00:20.000\nAlpha\n").toList

def vttC3LinesA : List Str := (splitLinesRe vttC3InputA).map trimJs

/-- Counterexample to claim C3 as stated: `vttC3InputA` and `vttC3InputB`
contain the same two cue blocks in opposite orders, both parses succeed,
yet only the first produces an overlap warning — the warnings are computed
on the cue list in file/emission order, before the final sort. -/
theorem claim_C3_counterexample :
    (parseVTTFile VTT_VALIDATION_CONFIG vttC3InputA).map (fun r => (r.success, r.warnings)) =
      some (true, some [overlapWarning
        ⟨"cue_1_10000".toList, some 10000, some 20000, "Alpha".toList, none, none⟩
        ⟨"cue_2_0".toList, some 0, some 5000, "Beta".toList, none, none⟩]) ∧
    (parseVTTFile VTT_VALIDATION_CONFIG vttC3InputB).map (fun r => (r.success, r.warnings)) =
      some (true, none) := by
  exact ⟨by decide, by decide⟩

/-- Claim C3 (amended): the adjacent-cue overlap warnings in a parse result
are computed by `checkOverlappingCues` on the scanned cue list in emission
(file) order, *before* the final ascending sort — the sort is applied only
to the returned cue list — so inputs with the same blocks in different
orders may yield different overlap warnings; and warnings never affect
success, which holds exactly when no errors were recorded. -/
theorem claim_C3_overlap_warnings (rules : VTTValidationRules) (lines : List Str)
    (st : ScanState) (r : ParseResult)
    (hscan : scanCues rules (lines.length + 1) (lines.drop 1) 1
        ⟨if headerMissing rules lines then [headerError rules] else [], [], [], 0⟩ = some st)
    (hr : parseVTTLines rules lines = some r) :
    (r.warnings = if (st.warnings ++ checkOverlappingCues st.cues).isEmpty then none
        else some (st.warnings ++ checkOverlappingCues st.cues)) ∧
    (r.success = true → r.cues = some (sortCues st.cues)) ∧
    (r.success = true ↔ r.errors = none) := by
  rw [parseVTTLines, hscan] at hr
  obtain rfl : assembleResult rules st = r := by simpa using hr
  refine ⟨?_, ?_, assembleResult_success_iff rules st⟩
  · rw [assembleResult]
  · intro hs
    rw [assembleResult]
    dsimp only
    rw [assembleResult] at hs
    dsimp only at hs
    rw [if_pos hs]

def vttC3ScanA : ScanState :=
  { errors := []
    warnings := []
    cues := [⟨"cue_1_10000".toList, some 10000, some 20000, "Alpha".toList, none, none⟩,
             ⟨"cue_2_0".toList, some 0, some 5000, "Beta".toList, none, none⟩]
    cueIndex := 2 }

def vttC3ResultA : ParseResult :=
  { success := true
    cues := some [⟨"cue_2_0".toList, some 0, some 5000, "Beta".toList, none, none⟩,
                  ⟨"cue_1_10000".toList, some 10000, some 20000, "Alpha".toList, none, none⟩]
    errors := none
    warnings := some [overlapWarning
      ⟨"cue_1_10000".toList, some 10000, some 20000, "Alpha".toList, none, none⟩
      ⟨"cue_2_0".toList, some 0, some 5000, "Beta".toList, none, none⟩] }

/-- Witness for the amended C3 at `vttC3InputA`. -/
theorem claim_C3_overlap_warnings_witness :
    (vttC3ResultA.warnings =
        if (vttC3ScanA.warnings ++ checkOverlappingCues vttC3ScanA.cues).isEmpty then none
        else some (vttC3ScanA.warnings ++ checkOverlappingCues vttC3ScanA.cues)) ∧
    (vttC3ResultA.success = true → vttC3ResultA.cues = some (sortCues vttC3ScanA.cues)) ∧
    (vttC3ResultA.success = true ↔ vttC3ResultA.errors = none) :=
  claim_C3_overlap_warnings VTT_VALIDATION_CONFIG vttC3LinesA vttC3ScanA vttC3ResultA
    (by decide) (by decide)

/-- Claim C10: an input that is empty or all-whitespace parses to a failed
result with exactly one CORRUPTED_FILE error, message
"File content is empty", and no cues, warnings, header error or NO_CUES
error. -/
theorem claim_C10_empty_input (rules : VTTValidationRules) (content : Str)
    (h : ∀ c ∈ content, isJsWs c = true) :
    parseVTTFile rules content =
      some { success := false
             cues := none
             errors := some [{ type := VTTErrorType.CORRUPTED_FILE
                               message := "File content is empty".toList
                               lineNumber := none
                               details := none }]
             warnings := none } := by
  have hd : content.dropWhile isJsWs = [] := List.dropWhile_eq_nil_iff.mpr h
  have ht : trimJs content = [] := by
    rw [trimJs, hd]
    rfl
  rw [parseVTTFile, if_pos]
  · rfl
  · simp [ht]

/-- Witness for C10 at a whitespace-only input. -/
theorem claim_C10_empty_input_witness :
    (∀ c ∈ (" \t\n ".toList : Str), isJsWs c = true) ∧
    parseVTTFile VTT_VALIDATION_CONFIG " \t\n ".toList =
      some { success := false
             cues := none
             errors := some [{ type := VTTErrorType.CORRUPTED_FILE
                               message := "File content is empty".toList
                               lineNumber := none
                               details := none }]
             warnings := none } :=
  ⟨by decide, claim_C10_empty_input VTT_VALIDATION_CONFIG " \t\n ".toList (by decide)⟩

/-! ## Claims C5, C7, C8, C9: session, projection and view model -/

theorem completionScan_fst : ∀ (idx : Nat) (cues : List TranscriptCue),
    (completionScan idx cues).1 = cues.countP (fun c => c.importance.isSome) := by
  intro idx cues
  induction cues generalizing idx with
  | nil => simp [completionScan]
  | cons c t ih =>
    rw [completionScan]
    cases hc : c.importance <;> simp [List.countP_cons, hc, ih]

theorem isSessionComplete_iff (s : AnnotationSession) (sum : SessionCompletionSummary)
    (h : summarizeSessionCompletion (some s) = some sum) :
    sum.isSessionComplete = true ↔ s.cues ≠ [] ∧ ∀ c ∈ s.cues, c.importance.isSome := by
  rw [summarizeSessionCompletion] at h
  obtain rfl := (Option.some.inj h).symm
  dsimp only
  simp only [Bool.and_eq_true, decide_eq_true_eq, completionScan_fst]
  have hle : s.cues.countP (fun c => c.importance.isSome) ≤ s.cues.length :=
    List.countP_le_length _
  constructor
  · rintro ⟨h1, h2⟩
    refine ⟨List.length_pos.mp h1, ?_⟩
    rw [← List.countP_eq_length]
    simp only [Nat.max_eq_zero_iff, Nat.sub_eq_zero_iff_le] at h2
    omega
  · rintro ⟨h1, h2⟩
    refine ⟨List.length_pos.mpr h1, ?_⟩
    rw [← List.countP_eq_length] at h2
    simp only [Nat.max_eq_zero_iff, Nat.sub_eq_zero_iff_le]
    exact ⟨by omega, trivial⟩

/-- Claim C7: `isSessionComplete` holds exactly when the session has at
least one cue and every cue is rated; a zero-cue session is never
complete; rating the last unrated cue (with any stored value) flips it to
true; clearing any cue's rating on a complete session flips it to false. -/
theorem claim_C7_session_complete (s : AnnotationSession) (sum : SessionCompletionSummary)
    (h : summarizeSessionCompletion (some s) = some sum) :
    (sum.isSessionComplete = true ↔ s.cues ≠ [] ∧ ∀ c ∈ s.cues, c.importance.isSome) ∧
    (s.cues = [] → sum.isSessionComplete = false) ∧
    (∀ i v sum2, ∀ hi : i < s.cues.length,
      (s.cues[i]).importance = none →
      (∀ j, ∀ hj : j < s.cues.length, j ≠ i → (s.cues[j]).importance.isSome) →
      summarizeSessionCompletion (some { s with cues := updateCueImportance s.cues i v }) =
        some sum2 →
      sum2.isSessionComplete = true) ∧
    (∀ i sum3, ∀ hi : i < s.cues.length,
      sum.isSessionComplete = true →
      summarizeSessionCompletion (some { s with cues := clearCueImportance s.cues i }) =
        some sum3 →
      sum3.isSessionComplete = false) := by
  refine ⟨isSessionComplete_iff s sum h, ?_, ?_, ?_⟩
  · intro hnil
    rcases hb : sum.isSessionComplete with _ | _
    · rfl
    · exact absurd ((isSessionComplete_iff s sum h).mp hb).1 (by simp [hnil])
  · intro i v sum2 hi hunr hrest h2
    have hget : s.cues.get? i = some (s.cues[i]) := List.get?_eq_get hi
    have hupd : updateCueImportance s.cues i v =
        s.cues.set i { s.cues[i] with importance := some v } := by
      rw [updateCueImportance, hget]
    rw [(isSessionComplete_iff _ sum2 h2)]
    constructor
    · intro hcontra
      rw [hupd] at hcontra
      simp at hcontra
      exact absurd hcontra (by intro hc; rw [hc] at hi; simp at hi)
    · intro c hc
      rw [hupd] at hc
      obtain ⟨j, hj, rfl⟩ := List.mem_iff_getElem.mp hc
      have hjlen : j < s.cues.length := by simpa using hj
      rw [List.getElem_set]
      split_ifs with hij
      · simp
      · exact hrest j hjlen (fun hji => hij hji.symm)
  · intro i sum3 hi hcomp h3
    have hget : s.cues.get? i = some (s.cues[i]) := List.get?_eq_get hi
    have hclr : clearCueImportance s.cues i =
        s.cues.set i { s.cues[i] with importance := none } := by
      rw [clearCueImportance, hget]
    rcases hb : sum3.isSessionComplete with _ | _
    · rfl
    · have hall := ((isSessionComplete_iff _ sum3 h3).mp hb).2
      rw [hclr] at hall
      have hlen : i < (s.cues.set i { s.cues[i] with importance := none }).length := by
        simpa using hi
      have hmem : (s.cues.set i { s.cues[i] with importance := none })[i] ∈
          s.cues.set i { s.cues[i] with importance := none } :=
        List.mem_iff_getElem.mpr ⟨i, hlen, rfl⟩
      have h2 := hall _ hmem
      rw [List.getElem_set] at h2
      simp at h2

def cueRatedTwo : TranscriptCue :=
  ⟨"cue_1_0".toList, some 0, some 1000, "Hi".toList, none, some 2⟩

def cueUnrated : TranscriptCue :=
  ⟨"cue_2_1000".toList, some 1000, some 2000, "Mid".toList, none, none⟩

def sessionA : AnnotationSession :=
  { sessionId := "sid".toList, meetingId := none, annotator := none, version := 1
    createdAt := "t0".toList, lastModified := "t1".toList
    originalFileName := some "a.vtt".toList, originalFileContent := none
    cues := [cueRatedTwo] }

def sessionB : AnnotationSession :=
  { sessionA with cues := [cueRatedTwo, cueUnrated] }

def sumA : SessionCompletionSummary :=
  ⟨1, 1, 0, [], 100, ⟨0, 0, 1, 0⟩, true, true, []⟩

def sum2B : SessionCompletionSummary :=
  ⟨2, 2, 0, [], 100, ⟨0, 0, 1, 1⟩, true, true, []⟩

def sum3A : SessionCompletionSummary :=
  ⟨1, 0, 1, [0], 0, ⟨0, 0, 0, 0⟩, false, true, []⟩

/-- Witness for C7: a fully rated one-cue session is complete; rating the
only unrated cue of a two-cue session completes it; clearing the single
rating breaks completeness. -/
theorem claim_C7_session_complete_witness :
    sumA.isSessionComplete = true ∧ sum2B.isSessionComplete = true ∧
      sum3A.isSessionComplete = false := by
  refine ⟨((claim_C7_session_complete sessionA sumA (by decide)).1).mpr
      ⟨by decide, by decide⟩, ?_, ?_⟩
  · exact (claim_C7_session_complete sessionB
        ⟨2, 1, 1, [1], 50, ⟨0, 0, 1, 0⟩, false, true, []⟩ (by decide)).2.2.1
      1 3 sum2B (by decide) (by decide) (by decide) (by decide)
  · exact (claim_C7_session_complete sessionA sumA (by decide)).2.2.2
      0 sum3A (by decide) (by decide) (by decide)

theorem generateAnnotationsAux_spec (now : Str) : ∀ (cues : List TranscriptCue) (idx : Nat),
    (∀ c ∈ cues, c.importance = none ∨
      ∃ v, c.importance = some v ∧ (v = 0 ∨ v = 1 ∨ v = 2 ∨ v = 3)) →
    ∃ anns, generateAnnotationsAux now idx cues = some anns ∧
      anns.map (fun a => a.annotationId) =
        (List.range' idx (cues.countP (fun c => c.importance.isSome))).map generateAnnotationId := by
  intro cues
  induction cues with
  | nil => intro idx h; exact ⟨[], rfl, by simp⟩
  | cons c t ih =>
    intro idx h
    rcases h c (by simp) with hc | ⟨v, hv, hvr⟩
    · obtain ⟨anns, ha, hm⟩ := ih idx (fun x hx => h x (by simp [hx]))
      refine ⟨anns, ?_, ?_⟩
      · rw [generateAnnotationsAux, hc, ha]
      · simpa [List.countP_cons, hc] using hm
    · obtain ⟨notes, hns⟩ : ∃ notes, generateImportanceNotes v = some notes := by
        rcases hvr with rfl | rfl | rfl | rfl <;> exact ⟨_, rfl⟩
      obtain ⟨anns, ha, hm⟩ := ih (idx + 1) (fun x hx => h x (by simp [hx]))
      refine ⟨⟨generateAnnotationId idx, c.startMs, c.endMs, v, notes, now⟩ :: anns, ?_, ?_⟩
      · rw [generateAnnotationsAux, hv]
        simp [createAnnotationFromCue, hv, hns, ha]
      · have hcnt : (c :: t).countP (fun c => c.importance.isSome) =
            t.countP (fun c => c.importance.isSome) + 1 := by
          simp [List.countP_cons, hv]
        rw [hcnt, List.range'_succ, List.map_cons, List.map_cons, hm]

/-- Claim C5: for a session whose cue importances lie in the data-model
range, the export projection succeeds and produces exactly K annotations —
one per rated cue, in cue order — with dense ids `A1` .. `AK`, where K is
the number of rated cues, regardless of which cues are rated. -/
theorem claim_C5_dense_annotation_ids (now : Str) (s : AnnotationSession)
    (h : ∀ c ∈ s.cues, c.importance = none ∨
      ∃ v, c.importance = some v ∧ (v = 0 ∨ v = 1 ∨ v = 2 ∨ v = 3)) :
    ∃ anns, generateAnnotationsFromSession now s = some anns ∧
      anns.length = s.cues.countP (fun c => c.importance.isSome) ∧
      anns.map (fun a => a.annotationId) =
        (List.range (s.cues.countP (fun c => c.importance.isSome))).map generateAnnotationId := by
  obtain ⟨anns, ha, hm⟩ := generateAnnotationsAux_spec now s.cues 0 h
  refine ⟨anns, ha, ?_, ?_⟩
  · have := congrArg List.length hm
    simpa using this
  · rw [hm, List.range_eq_range']

def cueRatedZero : TranscriptCue :=
  ⟨"cue_3_2000".toList, some 2000, some 3000, "End".toList, none, some 0⟩

def sessionC5 : AnnotationSession :=
  { sessionA with cues := [cueRatedTwo, cueUnrated, cueRatedZero] }

/-- Witness for C5: three cues of which the first and third are rated
produce annotations `A1`, `A2`. -/
theorem claim_C5_dense_annotation_ids_witness :
    (∀ c ∈ sessionC5.cues, c.importance = none ∨
      ∃ v, c.importance = some v ∧ (v = 0 ∨ v = 1 ∨ v = 2 ∨ v = 3)) ∧
    (∃ anns, generateAnnotationsFromSession "T".toList sessionC5 = some anns ∧
      anns.length = sessionC5.cues.countP (fun c => c.importance.isSome) ∧
      anns.map (fun a => a.annotationId) =
        (List.range (sessionC5.cues.countP (fun c => c.importance.isSome))).map
          generateAnnotationId) := by
  have hgood : ∀ c ∈ sessionC5.cues, c.importance = none ∨
      ∃ v, c.importance = some v ∧ (v = 0 ∨ v = 1 ∨ v = 2 ∨ v = 3) := by
    intro c hc
    simp only [sessionC5, sessionA, cueRatedTwo, cueUnrated, cueRatedZero,
      List.mem_cons, List.not_mem_nil, or_false] at hc
    rcases hc with rfl | rfl | rfl
    · exact Or.inr ⟨2, rfl, by norm_num⟩
    · exact Or.inl rfl
    · exact Or.inr ⟨0, rfl, by norm_num⟩
  exact ⟨hgood, claim_C5_dense_annotation_ids "T".toList sessionC5 hgood⟩

/-- Claim C8: the export-control view model (with its default label and
description id) evaluates its blocking conditions in the priority order
incomplete-cues, then missing metadata, then pending, and is enabled only
when none holds; the four states produce pairwise distinct outcomes. -/
theorem claim_C8_export_control (c : Bool) (n : Nat) (m p : Bool) :
    (c = false → createExportControlViewModelD c n m p =
      ⟨true, defaultBaseLabel,
        some ("Annotate ".toList ++ natToStr n ++ " more ".toList ++
          (if n = 1 then "cue".toList else "cues".toList) ++ " to export".toList),
        defaultDescriptionId⟩) ∧
    (c = true → m = false → createExportControlViewModelD c n m p =
      ⟨true, defaultBaseLabel,
        some "Original file metadata missing; confirm upload before exporting.".toList,
        defaultDescriptionId⟩) ∧
    (c = true → m = true → p = true → createExportControlViewModelD c n m p =
      ⟨true, "Preparing export...".toList, none, defaultDescriptionId⟩) ∧
    (c = true → m = true → p = false → createExportControlViewModelD c n m p =
      ⟨false, defaultBaseLabel,
        some "Download JSON + original VTT as a ZIP archive.".toList, defaultDescriptionId⟩) ∧
    ((⟨true, defaultBaseLabel,
        some ("Annotate ".toList ++ natToStr n ++ " more ".toList ++
          (if n = 1 then "cue".toList else "cues".toList) ++ " to export".toList),
        defaultDescriptionId⟩ : ExportControlViewModel) ≠
      ⟨true, defaultBaseLabel,
        some "Original file metadata missing; confirm upload before exporting.".toList,
        defaultDescriptionId⟩ ∧
     (⟨true, defaultBaseLabel,
        some ("Annotate ".toList ++ natToStr n ++ " more ".toList ++
          (if n = 1 then "cue".toList else "cues".toList) ++ " to export".toList),
        defaultDescriptionId⟩ : ExportControlViewModel) ≠
      ⟨true, "Preparing export...".toList, none, defaultDescriptionId⟩ ∧
     (⟨true, defaultBaseLabel,
        some ("Annotate ".toList ++ natToStr n ++ " more ".toList ++
          (if n = 1 then "cue".toList else "cues".toList) ++ " to export".toList),
        defaultDescriptionId⟩ : ExportControlViewModel) ≠
      ⟨false, defaultBaseLabel,
        some "Download JSON + original VTT as a ZIP archive.".toList, defaultDescriptionId⟩ ∧
     (⟨true, defaultBaseLabel,
        some "Original file metadata missing; confirm upload before exporting.".toList,
        defaultDescriptionId⟩ : ExportControlViewModel) ≠
      ⟨true, "Preparing export...".toList, none, defaultDescriptionId⟩ ∧
     (⟨true, defaultBaseLabel,
        some "Original file metadata missing; confirm upload before exporting.".toList,
        defaultDescriptionId⟩ : ExportControlViewModel) ≠
      ⟨false, defaultBaseLabel,
        some "Download JSON + original VTT as a ZIP archive.".toList, defaultDescriptionId⟩ ∧
     (⟨true, "Preparing export...".toList, none, defaultDescriptionId⟩ : ExportControlViewModel) ≠
      ⟨false, defaultBaseLabel,
        some "Download JSON + original VTT as a ZIP archive.".toList, defaultDescriptionId⟩) := by
  refine ⟨?_, ?_, ?_, ?_, ?_, ?_, ?_, ?_, ?_, ?_⟩
  · rintro rfl
    simp [createExportControlViewModelD, createExportControlViewModel]
  · rintro rfl rfl
    simp [createExportControlViewModelD, createExportControlViewModel]
  · rintro rfl rfl rfl
    simp [createExportControlViewModelD, createExportControlViewModel]
  · rintro rfl rfl rfl
    simp [createExportControlViewModelD, createExportControlViewModel]
  · simp [ExportControlViewModel.mk.injEq, List.cons_append]
  · simp [defaultBaseLabel, ExportControlViewModel.mk.injEq]
  · simp [ExportControlViewModel.mk.injEq]
  · simp [ExportControlViewModel.mk.injEq]
  · simp [ExportControlViewModel.mk.injEq]
  · simp [ExportControlViewModel.mk.injEq]

/-- Witness for C8: each of the four states at concrete flags. -/
theorem claim_C8_export_control_witness :
    createExportControlViewModelD false 1 true false =
      ⟨true, defaultBaseLabel,
        some ("Annotate ".toList ++ natToStr 1 ++ " more ".toList ++
          (if 1 = 1 then "cue".toList else "cues".toList) ++ " to export".toList),
        defaultDescriptionId⟩ ∧
    createExportControlViewModelD true 0 false false =
      ⟨true, defaultBaseLabel,
        some "Original file metadata missing; confirm upload before exporting.".toList,
        defaultDescriptionId⟩ ∧
    createExportControlViewModelD true 0 true true =
      ⟨true, "Preparing export...".toList, none, defaultDescriptionId⟩ ∧
    createExportControlViewModelD true 0 true false =
      ⟨false, defaultBaseLabel,
        some "Download JSON + original VTT as a ZIP archive.".toList, defaultDescriptionId⟩ ∧
    (⟨true, defaultBaseLabel,
        some ("Annotate ".toList ++ natToStr 0 ++ " more ".toList ++
          (if 0 = 1 then "cue".toList else "cues".toList) ++ " to export".toList),
        defaultDescriptionId⟩ : ExportControlViewModel) ≠
      ⟨true, defaultBaseLabel,
        some "Original file metadata missing; confirm upload before exporting.".toList,
        defaultDescriptionId⟩ :=
  ⟨(claim_C8_export_control false 1 true false).1 rfl,
   (claim_C8_export_control true 0 false false).2.1 rfl rfl,
   (claim_C8_export_control true 0 true true).2.2.1 rfl rfl rfl,
   (claim_C8_export_control true 0 true false).2.2.2.1 rfl rfl rfl,
   (claim_C8_export_control false 0 true false).2.2.2.2.1⟩

/-! ## Claim C9: the importance range invariant -/

/-- The data-model range for a cue's importance: absent or in {0,1,2,3}. -/
def GoodImp (c : TranscriptCue) : Prop :=
  c.importance = none ∨ c.importance = some 0 ∨ c.importance = some 1 ∨
    c.importance = some 2 ∨ c.importance = some 3

instance (c : TranscriptCue) : Decidable (GoodImp c) := by
  unfold GoodImp
  infer_instance

theorem mem_insertCue {a c : TranscriptCue} : ∀ {l : List TranscriptCue},
    a ∈ insertCue c l → a = c ∨ a ∈ l := by
  intro l
  induction l with
  | nil =>
    intro h
    rw [insertCue] at h
    exact Or.inl (by simpa using h)
  | cons d ds ih =>
    intro h
    rw [insertCue] at h
    split_ifs at h
    · rcases List.mem_cons.mp h with rfl | h
      · exact Or.inr (by simp)
      · rcases ih h with h | h
        · exact Or.inl h
        · exact Or.inr (by simp [h])
    · rcases List.mem_cons.mp h with rfl | h
      · exact Or.inl rfl
      · exact Or.inr h

theorem mem_sortCues_aux {a : TranscriptCue} : ∀ (l acc : List TranscriptCue),
    a ∈ l.foldl (fun acc c => insertCue c acc) acc → a ∈ acc ∨ a ∈ l := by
  intro l
  induction l with
  | nil => intro acc h; exact Or.inl h
  | cons c t ih =>
    intro acc h
    rcases ih (insertCue c acc) h with h | h
    · rcases mem_insertCue h with rfl | h
      · exact Or.inr (by simp)
      · exact Or.inl h
    · exact Or.inr (by simp [h])

theorem mem_sortCues {a : TranscriptCue} {l : List TranscriptCue} (h : a ∈ sortCues l) :
    a ∈ l := by
  rcases mem_sortCues_aux l [] h with h | h
  · cases h
  · exact h

theorem get?_set_self {α : Type} : ∀ (l : List α) (i : Nat) (a : α), i < l.length →
    (l.set i a).get? i = some a := by
  intro l
  induction l with
  | nil => intro i a h; simp at h
  | cons c t ih =>
    intro i a h
    rcases i with _ | i
    · rfl
    · simpa using ih i a (by simpa using h)

def cueUnratedSolo : TranscriptCue :=
  ⟨"cue_9_0".toList, some 0, some 1000, "Solo".toList, none, none⟩

/-- Counterexample to claim C9 as stated: `updateCueImportance` performs no
range validation and stores the value 7, which is outside {0,1,2,3}. -/
theorem claim_C9_counterexample :
    (updateCueImportance [cueUnratedSolo] 0 7).map (fun c => c.importance) = [some 7] ∧
    ((7 : Int) ≠ 0 ∧ (7 : Int) ≠ 1 ∧ (7 : Int) ≠ 2 ∧ (7 : Int) ≠ 3) := by
  exact ⟨by decide, by decide⟩

/-- Claim C9 (amended): parsing emits only unrated cues; `updateCueImportance`
stores exactly the supplied value, so the invariant that every cue's
importance is absent or in {0,1,2,3} is preserved by rating precisely when
the supplied value lies in {0,1,2,3} (as the digit-key UI guarantees), and
by clearing always; a value outside the range is stored verbatim. -/
theorem claim_C9_importance_range :
    (∀ (rules : VTTValidationRules) lines r cs, parseVTTLines rules lines = some r →
        r.cues = some cs → ∀ c ∈ cs, c.importance = none) ∧
    (∀ (cues : List TranscriptCue) i v, (v = 0 ∨ v = 1 ∨ v = 2 ∨ v = 3) →
        (∀ c ∈ cues, GoodImp c) → ∀ c ∈ updateCueImportance cues i v, GoodImp c) ∧
    (∀ (cues : List TranscriptCue) i, (∀ c ∈ cues, GoodImp c) →
        ∀ c ∈ clearCueImportance cues i, GoodImp c) ∧
    (∀ (cues : List TranscriptCue) i v c, cues.get? i = some c →
        (updateCueImportance cues i v).get? i = some { c with importance := some v }) := by
  refine ⟨?_, ?_, ?_, ?_⟩
  · intro rules lines r cs h hcs
    rw [parseVTTLines] at h
    cases hscan : scanCues rules (lines.length + 1) (lines.drop 1) 1
        ⟨if headerMissing rules lines then [headerError rules] else [], [], [], 0⟩ with
    | none => rw [hscan] at h; simp at h
    | some st =>
      rw [hscan] at h
      obtain rfl : assembleResult rules st = r := by simpa using h
      obtain ⟨-, hcues⟩ := scanCues_invariants rules _ _ _ _ _ le_rfl hscan
      rw [assembleResult] at hcs
      dsimp only at hcs
      split_ifs at hcs
      obtain rfl : sortCues st.cues = cs := by simpa using hcs
      intro c hc
      rcases hcues c (mem_sortCues hc) with h | h
      · simp at h
      · exact h
  · intro cues i v hv hgood c hc
    rw [updateCueImportance] at hc
    cases hg : cues.get? i with
    | none => rw [hg] at hc; exact hgood c hc
    | some d =>
      rw [hg] at hc
      rcases List.mem_or_eq_of_mem_set hc with hc | rfl
      · exact hgood c hc
      · rcases hv with rfl | rfl | rfl | rfl
        · exact Or.inr (Or.inl rfl)
        · exact Or.inr (Or.inr (Or.inl rfl))
        · exact Or.inr (Or.inr (Or.inr (Or.inl rfl)))
        · exact Or.inr (Or.inr (Or.inr (Or.inr rfl)))
  · intro cues i hgood c hc
    rw [clearCueImportance] at hc
    cases hg : cues.get? i with
    | none => rw [hg] at hc; exact hgood c hc
    | some d =>
      rw [hg] at hc
      rcases List.mem_or_eq_of_mem_set hc with hc | rfl
      · exact hgood c hc
      · exact Or.inl rfl
  · intro cues i v c hg
    rw [updateCueImportance, hg]
    obtain ⟨hlt, -⟩ := List.get?_eq_some.mp hg
    exact get?_set_self cues i _ hlt

/-- Witness for the amended C9: parse-produced cues are unrated, rating
with 2 preserves the range invariant, and the update stores exactly 2. -/
theorem claim_C9_importance_range_witness :
    (∀ c ∈ vttC3ResultA.cues.getD [], c.importance = none) ∧
    (∀ c ∈ updateCueImportance [cueUnratedSolo] 0 2, GoodImp c) ∧
    (updateCueImportance [cueUnratedSolo] 0 2).get? 0 =
      some { cueUnratedSolo with importance := some 2 } := by
  refine ⟨?_, ?_, ?_⟩
  · intro c hc
    exact claim_C9_importance_range.1 VTT_VALIDATION_CONFIG vttC3LinesA vttC3ResultA
      (vttC3ResultA.cues.getD []) (by decide) (by decide) c hc
  · exact claim_C9_importance_range.2.1 [cueUnratedSolo] 0 2 (by norm_num)
      (by intro c hc; simp only [List.mem_singleton] at hc; subst hc; exact Or.inl rfl)
  · exact claim_C9_importance_range.2.2.2 [cueUnratedSolo] 0 2 cueUnratedSolo (by decide)

/-! ## Claim C6: export naming -/

/-- Claim C6: for meetingId "Team Sync #1", original filename "notes.txt"
and export time 2025-01-02T03:04:05.678Z, the export pipeline derives the
archive prefix "team-sync-1", the archive filename
"team-sync-1-annotations-2025-01-02T03-04-05.zip" and the inner text file
name "notes.vtt". -/
theorem claim_C6_export_naming :
    exportNaming (some "Team Sync #1".toList) (some "notes.txt".toList)
        "2025-01-02T03:04:05.678Z".toList =
      { archivePrefix := "team-sync-1".toList
        vttFilename := "notes.vtt".toList
        filename := "team-sync-1-annotations-2025-01-02T03-04-05.zip".toList } := by
  decide
